import Mathlib

/-!
Verification of the state-tax-app data pipeline
(`scripts/normalize-census-sources.mjs` and `scripts/ingest-state-tax-data.mjs`).

The JavaScript code is shallowly embedded:
* JavaScript numbers are modelled by `ℚ` for finite values; the single
  non-finite case that can reach the pipeline (`NaN`, and `±Infinity`
  collapsed with it) is modelled by `JVal.nonfinite` for raw values and by
  `Option ℚ` (`none` = non-finite) for results of `Number(...)`.
  Every arithmetic step the pipeline performs on data values
  (addition, division by a positive population, `Math.round`, `toFixed(2)`)
  is exact on the rationals that arise, so `ℚ` is a faithful carrier.
* JavaScript `Map`s and plain objects are modelled as insertion-ordered
  association lists (`omapSet` / `omapGet?`), matching the iteration order
  guarantees of `Map` and of string-keyed objects.
* Fallible library calls (`JSON.parse`, `Papa.parse`) return `Except`/`Option`.
-/

set_option maxHeartbeats 1000000
set_option maxRecDepth 100000

namespace StateTaxApp

/-- A JavaScript value as it can occur in a parsed source row or config field:
`undefined`, `null`, a string, a finite number, a boolean, or a non-finite
number (`NaN` / `±Infinity`; the two are never distinguished by the pipeline,
which only ever consults `Number.isFinite`). -/
inductive JVal where
  | undefined
  | null
  | str (s : String)
  | num (q : ℚ)
  | bool (b : Bool)
  | nonfinite
deriving DecidableEq

/-- JavaScript truthiness (`!value` is its negation).  `nonfinite` is treated
as falsy; this matches `NaN` (the only non-finite value the pipeline can feed
to a boolean test, since source rows come from JSON or CSV text). -/
def jsTruthy : JVal → Bool
  | .undefined => false
  | .null => false
  | .str s => decide (s ≠ "")
  | .num q => decide (q ≠ 0)
  | .bool b => b
  | .nonfinite => false

/-- The JavaScript nullish-coalescing operator `a ?? b`. -/
def jsCoalesce (a b : JVal) : JVal :=
  match a with
  | .undefined => b
  | .null => b
  | v => v

/-- JavaScript `String(v)`.  For a non-integral finite number JavaScript prints a decimal
expansion; the pipeline only ever stringifies values that are strings,
`null`/`undefined` or integers, so the non-integral branch (rendered here in
`num/den` form) is never exercised. -/
def jsToString : JVal → String
  | .undefined => "undefined"
  | .null => "null"
  | .str s => s
  | .num q => if q.den = 1 then toString q.num else toString q
  | .bool b => if b then "true" else "false"
  | .nonfinite => "NaN"

/-- ASCII whitespace as trimmed by `String.prototype.trim` (the Unicode
whitespace code points beyond these never occur in the pipeline's inputs). -/
def isJsWs (c : Char) : Bool := c.isWhitespace

/-- List-level `trim`: drop whitespace from both ends. -/
def trimList (cs : List Char) : List Char :=
  ((cs.dropWhile isJsWs).reverse.dropWhile isJsWs).reverse

/-- Model of `s.trim()` (kernel-reducible `String.trim`). -/
def strTrim (s : String) : String := ⟨trimList s.toList⟩

/-- Numeric value of a run of decimal digits. -/
def digitsToNat (ds : List Char) : ℕ :=
  ds.foldl (fun a c => a * 10 + (c.toNat - 48)) 0

/-- Value of a fractional digit run (`.ds`). -/
def fracToRat (ds : List Char) : ℚ :=
  (digitsToNat ds : ℚ) / (10 : ℚ) ^ ds.length

/-- Optional exponent part `[eE][+-]?digits` of a numeric literal.
Returns the exponent and the unconsumed input; `none` when an `e`/`E` is
present but not followed by well-formed digits. -/
def parseExpPart (cs : List Char) : Option (ℤ × List Char) :=
  match cs with
  | 'e' :: rest => parseExpDigits rest
  | 'E' :: rest => parseExpDigits rest
  | rest => some (0, rest)
where
  parseExpDigits (cs : List Char) : Option (ℤ × List Char) :=
    match cs with
    | '+' :: ds => if ds ≠ [] ∧ ds.all Char.isDigit then some ((digitsToNat ds : ℤ), []) else none
    | '-' :: ds => if ds ≠ [] ∧ ds.all Char.isDigit then some (-(digitsToNat ds : ℤ), []) else none
    | ds => if ds ≠ [] ∧ ds.all Char.isDigit then some ((digitsToNat ds : ℤ), []) else none

/-- Unsigned part of ECMAScript `StringToNumber`: decimal digits with an
optional fraction and exponent.  The whole input must be consumed.
(The hexadecimal/binary/octal literal forms and the `Infinity` literal of
full ECMAScript are outside the modelled subset: no pipeline value uses
them, and `Infinity` is collapsed into the non-finite result anyway.) -/
def parseUnsignedDec (cs : List Char) : Option ℚ :=
  let ip := cs.takeWhile Char.isDigit
  let r1 := cs.drop ip.length
  match r1 with
  | '.' :: r2 =>
    let fp := r2.takeWhile Char.isDigit
    let r3 := r2.drop fp.length
    if ip = [] ∧ fp = [] then none
    else
      match parseExpPart r3 with
      | some (e, []) => some (((digitsToNat ip : ℚ) + fracToRat fp) * (10 : ℚ) ^ e)
      | _ => none
  | _ =>
    if ip = [] then none
    else
      match parseExpPart r1 with
      | some (e, []) => some ((digitsToNat ip : ℚ) * (10 : ℚ) ^ e)
      | _ => none

/-- ECMAScript `StringToNumber` on the decimal subset: trim whitespace,
empty means `0`, otherwise an optionally signed decimal literal;
`none` models a non-finite result (`NaN`). -/
def jsStrToNum (s : String) : Option ℚ :=
  let t := strTrim s
  if t = "" then some 0
  else
    match t.toList with
    | '+' :: cs => parseUnsignedDec cs
    | '-' :: cs => (parseUnsignedDec cs).map Neg.neg
    | cs => parseUnsignedDec cs

/-- JavaScript `Number(v)`: `none` models a non-finite result. -/
def jsToNumber : JVal → Option ℚ
  | .undefined => none
  | .null => some 0
  | .str s => jsStrToNum s
  | .num q => some q
  | .bool b => some (if b then 1 else 0)
  | .nonfinite => none

/-- Remove every `$` and `,` character: `.replace(/[$,]/g, '')`. -/
def stripDollarComma (s : String) : String :=
  ⟨s.toList.filter (fun c => decide (c ≠ '$') && decide (c ≠ ','))⟩

/-- Split a character list at the first occurrence of `c` (excluded). -/
def splitFirst (c : Char) : List Char → Option (List Char × List Char)
  | [] => none
  | x :: xs =>
    if x = c then some ([], xs)
    else (splitFirst c xs).map (fun p => (x :: p.1, p.2))

/-- Model of `.replace(/\((.*)\)/, '-$1')`: rewrite the first parenthesized run
`(X)` (greedy, so up to the last closing parenthesis) as `-X`; unchanged when
there is no match.  The regex dot does not cross line terminators; cell
values are single-line, so that subtlety is not modelled. -/
def rewriteParens (s : String) : String :=
  match splitFirst '(' s.toList with
  | none => s
  | some (pre, rest) =>
    match splitFirst ')' rest.reverse with
    | none => s
    | some (postRev, midRev) => ⟨pre ++ '-' :: (midRev.reverse ++ postRev.reverse)⟩

/-- The `parseNumeric` helper from both `normalize-census-sources.mjs` (lines 74–90) and
`ingest-state-tax-data.mjs` (lines 65–81): finite numbers pass through,
non-finite numbers become `0`; falsy values become `0`; otherwise the value is
stringified, `$`/`,` stripped, a parenthesized amount rewritten as a negated
one, trimmed, and numerically parsed, with `0` on a non-finite parse. -/
def parseNumeric (v : JVal) : ℚ :=
  match v with
  | .num q => q
  | .nonfinite => 0
  | v =>
    if jsTruthy v = false then 0
    else
      let normalized := strTrim (rewriteParens (stripDollarComma (jsToString v)))
      match jsStrToNum normalized with
      | some q => q
      | none => 0

/-- The State Roster (`VALID_STATES`, identical in both scripts): the fifty
recognized jurisdiction names. -/
def VALID_STATES : List String :=
  ["Alabama", "Alaska", "Arizona", "Arkansas", "California", "Colorado",
   "Connecticut", "Delaware", "Florida", "Georgia", "Hawaii", "Idaho",
   "Illinois", "Indiana", "Iowa", "Kansas", "Kentucky", "Louisiana", "Maine",
   "Maryland", "Massachusetts", "Michigan", "Minnesota", "Mississippi",
   "Missouri", "Montana", "Nebraska", "Nevada", "New Hampshire", "New Jersey",
   "New Mexico", "New York", "North Carolina", "North Dakota", "Ohio",
   "Oklahoma", "Oregon", "Pennsylvania", "Rhode Island", "South Carolina",
   "South Dakota", "Tennessee", "Texas", "Utah", "Vermont", "Virginia",
   "Washington", "West Virginia", "Wisconsin", "Wyoming"]

/-- The `CENSUS_TAX_CODE_TO_TYPE` lookup (normalize-census-sources.mjs lines 63–72). -/
def CENSUS_TAX_CODE_TO_TYPE : List (String × String) :=
  [("LF0022", "Individual income tax"),
   ("LF0023", "Corporate income tax"),
   ("LF0011", "General sales tax"),
   ("LF0012", "Selective sales tax"),
   ("LF0009", "Property tax"),
   ("LF0033", "Other tax")]

/-- The `LICENSE_CODES` set (normalize-census-sources.mjs line 74). -/
def LICENSE_CODES : List String :=
  ["LF0024", "LF0025", "LF0026", "LF0027", "LF0028", "LF0029", "LF0030",
   "LF0031", "LF0032"]

/-- The `normalizeState` helper: `String(value ?? '').trim()`. -/
def normalizeState (v : JVal) : String :=
  strTrim (jsToString (jsCoalesce v (.str "")))

/-! ### Insertion-ordered maps

JavaScript `Map`s iterate in key-insertion order and keep a key's position on
update; string-keyed plain objects behave the same way for the keys this
pipeline produces.  Both are modelled as association lists. -/

section OMap

variable {κ ν : Type} [DecidableEq κ]

/-- JavaScript `m.set(k, v)` / `obj[k] = v`: overwrite the entry for `k` in place, or
append a new entry at the end. -/
def omapSet : List (κ × ν) → κ → ν → List (κ × ν)
  | [], k, v => [(k, v)]
  | a :: m, k, v => if a.1 = k then (k, v) :: m else a :: omapSet m k v

/-- JavaScript `m.get(k)` / `obj[k]`, as an `Option`. -/
def omapGet? (m : List (κ × ν)) (k : κ) : Option ν :=
  (m.find? (fun p => decide (p.1 = k))).map (·.2)

theorem omapGet?_nil (k : κ) : omapGet? ([] : List (κ × ν)) k = none := rfl

theorem omapGet?_cons (a : κ × ν) (m : List (κ × ν)) (k : κ) :
    omapGet? (a :: m) k = if a.1 = k then some a.2 else omapGet? m k := by
  by_cases h : a.1 = k <;> simp [omapGet?, List.find?_cons, h]

theorem omapGet?_set_self (m : List (κ × ν)) (k : κ) (v : ν) :
    omapGet? (omapSet m k v) k = some v := by
  induction m with
  | nil => simp [omapSet, omapGet?_cons, omapGet?_nil]
  | cons a m ih =>
    by_cases h : a.1 = k <;> simp [omapSet, h, omapGet?_cons, ih]

theorem omapGet?_set_ne (m : List (κ × ν)) (k k' : κ) (v : ν) (h : k' ≠ k) :
    omapGet? (omapSet m k v) k' = omapGet? m k' := by
  induction m with
  | nil => simp [omapSet, omapGet?_cons, omapGet?_nil, Ne.symm h]
  | cons a m ih =>
    by_cases hh : a.1 = k
    · subst hh
      simp [omapSet, omapGet?_cons, Ne.symm h]
    · simp [omapSet, hh, omapGet?_cons, ih]

theorem omapSet_ne_nil (m : List (κ × ν)) (k : κ) (v : ν) :
    omapSet m k v ≠ [] := by
  cases m with
  | nil => simp [omapSet]
  | cons a m => by_cases h : a.1 = k <;> simp [omapSet, h]

theorem mem_omapSet (m : List (κ × ν)) (k : κ) (v : ν) (x : κ × ν)
    (hx : x ∈ omapSet m k v) : x = (k, v) ∨ x ∈ m := by
  induction m with
  | nil => simpa [omapSet] using hx
  | cons a m ih =>
    by_cases h : a.1 = k
    · simp only [omapSet, h, if_pos] at hx
      rcases List.mem_cons.mp hx with h1 | h2
      · exact Or.inl h1
      · exact Or.inr (List.mem_cons_of_mem a h2)
    · simp only [omapSet, h, if_neg, not_false_iff] at hx
      rcases List.mem_cons.mp hx with h1 | h2
      · exact Or.inr (h1 ▸ List.mem_cons_self a m)
      · rcases ih h2 with h3 | h4
        · exact Or.inl h3
        · exact Or.inr (List.mem_cons_of_mem a h4)

theorem keys_omapSet (m : List (κ × ν)) (k : κ) (v : ν) :
    (omapSet m k v).map Prod.fst =
      if k ∈ m.map Prod.fst then m.map Prod.fst else m.map Prod.fst ++ [k] := by
  induction m with
  | nil => simp [omapSet]
  | cons a m ih =>
    by_cases h : a.1 = k
    · simp [omapSet, h]
    · simp only [omapSet, h, if_neg, not_false_iff, List.map_cons, ih]
      by_cases hk : k ∈ m.map Prod.fst
      · simp [hk, Ne.symm h]
      · simp [hk, Ne.symm h]

theorem length_omapSet (m : List (κ × ν)) (k : κ) (v : ν) :
    (omapSet m k v).length =
      if k ∈ m.map Prod.fst then m.length else m.length + 1 := by
  have h := congrArg List.length (keys_omapSet m k v)
  simp only [List.length_map] at h
  rw [h]
  by_cases hk : k ∈ m.map Prod.fst <;> simp [hk]

theorem sum_values_omapSet (m : List (κ × ℚ)) (k : κ) (t : ℚ) :
    ((omapSet m k ((omapGet? m k).getD 0 + t)).map Prod.snd).sum =
      (m.map Prod.snd).sum + t := by
  induction m with
  | nil => simp [omapSet, omapGet?_nil]
  | cons a m ih =>
    by_cases h : a.1 = k
    · simp only [omapSet, h, if_pos, omapGet?_cons, List.map_cons, List.sum_cons]
      ring_nf
      simp [h]
      ring
    · simp only [omapSet, h, if_neg, not_false_iff, omapGet?_cons, List.map_cons,
        List.sum_cons, if_neg h, ih]
      ring

end OMap

/-- A source row: a field-keyed record produced by the Source Row Reader
(`hasOwnProperty` = key present in the list; values may be `undefined`, matching
a JSON row shorter than its header list). -/
abbrev RawRecord := List (String × JVal)

/-- Property access `row.k` / `row[k]`: `undefined` when the key is absent. -/
def getField (row : RawRecord) (k : String) : JVal :=
  match omapGet? row k with
  | some v => v
  | none => .undefined

/-- The `pickColumn` resolver (normalize-census-sources.mjs lines 152–160): the value of
the first alias present as a key (`hasOwnProperty`), else `undefined`. -/
def pickColumn (row : RawRecord) (aliases : List String) : JVal :=
  match aliases.find? (fun a => row.any (fun p => decide (p.1 = a))) with
  | some a => getField row a
  | none => .undefined

/-- JS `Map.get` on a fixed lookup table with unique keys. -/
def lookupList (m : List (String × String)) (k : String) : Option String :=
  (m.find? (fun p => decide (p.1 = k))).map (·.2)

/-! ### Tax Category Normalizer, statistical-code shape
(`normalizeTaxFromCensusApiRows`, normalize-census-sources.mjs lines 162–207) -/

/-- One `(state, year, tax_type)` accumulation bucket. -/
structure TaxBucket where
  state : String
  year : Option ℚ
  tax_type : String
  state_tax_revenue : ℚ
  local_tax_revenue : ℚ
deriving DecidableEq

/-- The bucket map key.  The source builds the string
`state + "||" + year + "||" + taxType`; at this point `state` is a roster
name, `taxType` a fixed label and `year` prints as digits or `NaN`, none of
which can contain `"||"`, so the string key and this triple have the same
equality.  (`NaN` is a `Map` key under SameValueZero, so `NaN` keys collide
with each other, matching `none = none`.) -/
abbrev BucketKey := String × Option ℚ × String

/-- The loop body of `normalizeTaxFromCensusApiRows` for one row. -/
def censusTaxStep (cfgYear : ℚ) (bucket : List (BucketKey × TaxBucket))
    (row : RawRecord) : List (BucketKey × TaxBucket) :=
  let state := normalizeState
    (jsCoalesce (getField row "NAME") (jsCoalesce (getField row "state") (getField row "State")))
  let year := jsToNumber
    (jsCoalesce (getField row "YEAR") (jsCoalesce (getField row "year") (.num cfgYear)))
  let code := strTrim (jsToString (jsCoalesce (getField row "AGG_DESC") (.str "")))
  let govType := strTrim (jsToString (jsCoalesce (getField row "GOVTYPE") (.str "")))
  if state = "" ∨ state ∉ VALID_STATES ∨ code = "" ∨ govType ∉ (["002", "003"] : List String) then
    bucket
  else
    let taxType? :=
      match lookupList CENSUS_TAX_CODE_TO_TYPE code with
      | some t => some t
      | none => if code ∈ LICENSE_CODES then some "License tax" else none
    match taxType? with
    | none => bucket
    | some taxType =>
      let amount := parseNumeric (getField row "AMOUNT")
      let key : BucketKey := (state, year, taxType)
      let current := (omapGet? bucket key).getD
        { state := state, year := year, tax_type := taxType
          state_tax_revenue := 0, local_tax_revenue := 0 }
      let current :=
        if govType = "002" then
          { current with state_tax_revenue := current.state_tax_revenue + amount }
        else current
      let current :=
        if govType = "003" then
          { current with local_tax_revenue := current.local_tax_revenue + amount }
        else current
      omapSet bucket key current

/-- The accumulated bucket map, before the final zero filter. -/
def normalizeTaxBuckets (rows : List RawRecord) (cfgYear : ℚ) :
    List (BucketKey × TaxBucket) :=
  rows.foldl (censusTaxStep cfgYear) []

/-- The function `normalizeTaxFromCensusApiRows`: accumulate, take the bucket values, and
keep those with a strictly positive state-level or local-level amount. -/
def normalizeTaxFromCensusApiRows (rows : List RawRecord) (cfgYear : ℚ) :
    List TaxBucket :=
  ((normalizeTaxBuckets rows cfgYear).map (·.2)).filter
    (fun r => decide (0 < r.state_tax_revenue) || decide (0 < r.local_tax_revenue))

/-! ### Tax Category Normalizer, pre-normalized shape
(the `else` branch of `run`, normalize-census-sources.mjs lines 243–253) -/

/-- The configured alias lists of `config.normalization.tax`. -/
structure TaxAliases where
  state : List String
  year : List String
  taxType : List String
  stateTaxRevenue : List String
  localTaxRevenue : List String

/-- A row of the pre-normalized shape after column aliasing. -/
structure PreTaxRow where
  state : String
  year : Option ℚ
  tax_type : String
  state_tax_revenue : ℚ
  local_tax_revenue : ℚ
deriving DecidableEq

/-- The `.map` body of the pre-normalized branch. -/
def normalizePreTaxRow (al : TaxAliases) (cfgYear : ℚ) (row : RawRecord) : PreTaxRow :=
  { state := normalizeState (pickColumn row al.state)
    year := jsToNumber (jsCoalesce (pickColumn row al.year) (.num cfgYear))
    tax_type := strTrim (jsToString (jsCoalesce (pickColumn row al.taxType) (.str "")))
    state_tax_revenue := parseNumeric (pickColumn row al.stateTaxRevenue)
    local_tax_revenue := parseNumeric (pickColumn row al.localTaxRevenue) }

/-- The pre-normalized branch: map each row through the aliases, then keep
rows with a non-empty state that is on the roster and a non-empty tax type. -/
def normalizePreNormalizedTaxRows (rows : List RawRecord) (al : TaxAliases)
    (cfgYear : ℚ) : List PreTaxRow :=
  (rows.map (normalizePreTaxRow al cfgYear)).filter
    (fun r => decide (r.state ≠ "") && decide (r.tax_type ≠ "") && decide (r.state ∈ VALID_STATES))

/-! ### Ingestion (`run`, ingest-state-tax-data.mjs lines 129–250)

The file reads are external; `runIngest` consumes the two row lists the CSV
reader produced, plus the configuration and the generation timestamp
(`new Date().toISOString()`), which is the only non-input dependency of the
payload. -/

/-- The `config.columns` record: single source column names (not alias lists) for each
logical field. -/
structure IngestColumns where
  taxState : String
  taxYear : String
  taxTaxType : String
  taxStateRevenue : String
  taxLocalRevenue : String
  popState : String
  popYear : String
  popPopulation : String

/-- The ingestion configuration surface used by `run`. -/
structure IngestConfig where
  year : ℚ
  topNStates : ℕ
  columns : IngestColumns
  taxTypeMap : List (String × String)
  taxTypeLabels : List (String × String)

/-- The `toTaxTypeKey` character class `[a-z0-9]` (after lowercasing). -/
def isSlugChar (c : Char) : Bool :=
  (decide ('a' ≤ c) && decide (c ≤ 'z')) || (decide ('0' ≤ c) && decide (c ≤ '9'))

/-- ASCII lowercasing (`String.prototype.toLowerCase`; the pipeline's tax
type labels are ASCII). -/
def asciiLower (c : Char) : Char :=
  if 'A' ≤ c ∧ c ≤ 'Z' then Char.ofNat (c.toNat + 32) else c

/-- Worker for `squashRuns`; the flag records whether the previous character
was part of a (already replaced) non-slug run. -/
def squashRunsAux : Bool → List Char → List Char
  | _, [] => []
  | inRun, c :: cs =>
    if isSlugChar c then c :: squashRunsAux false cs
    else if inRun then squashRunsAux true cs
    else '_' :: squashRunsAux true cs

/-- Model of `.replace(/[^a-z0-9]+/g, '_')`: collapse each maximal run of non-slug
characters into a single underscore. -/
def squashRuns (cs : List Char) : List Char := squashRunsAux false cs

/-- Model of `.replace(/^_+|_+$/g, '')`: strip leading and trailing underscore runs. -/
def trimUnderscores (cs : List Char) : List Char :=
  ((cs.dropWhile (fun c => decide (c = '_'))).reverse.dropWhile
    (fun c => decide (c = '_'))).reverse

/-- The `toTaxTypeKey` slugifier (ingest-state-tax-data.mjs lines 85–90): stringify, trim,
lowercase, slugify. -/
def toTaxTypeKey (v : JVal) : String :=
  ⟨trimUnderscores (squashRuns ((trimList (jsToString (jsCoalesce v (.str ""))).toList).map asciiLower))⟩

/-- JavaScript `Math.round`: round to nearest, ties toward `+∞`. -/
def jsRound (q : ℚ) : ℚ := (⌊q + 1/2⌋ : ℤ)

/-- JavaScript `Number(x.toFixed(2))`: round to two decimal places (nearest, ties toward
`+∞` — `toFixed` picks the larger candidate on a tie). -/
def round2 (q : ℚ) : ℚ := ((⌊q * 100 + 1/2⌋ : ℤ) : ℚ) / 100

/-- Does this population row pass the year filter?  `false` exactly when the
year field parses to a finite number different from the configured year. -/
def popYearKeeps (cfg : IngestConfig) (row : RawRecord) : Bool :=
  match jsToNumber (getField row cfg.columns.popYear) with
  | some y => decide (y = cfg.year)
  | none => true

/-- Loop body of the population pass (ingest-state-tax-data.mjs
lines 140–155): filter by year, state, positivity; last write wins. -/
def popStep (cfg : IngestConfig) (m : List (String × ℚ)) (row : RawRecord) :
    List (String × ℚ) :=
  if popYearKeeps cfg row = false then m
  else
    let state := normalizeState (getField row cfg.columns.popState)
    if state = "" ∨ state ∉ VALID_STATES then m
    else
      let population := parseNumeric (getField row cfg.columns.popPopulation)
      if 0 < population then omapSet m state population else m

/-- The `populationByState` map after the population pass. -/
def buildPopulationMap (cfg : IngestConfig) (rows : List RawRecord) :
    List (String × ℚ) :=
  rows.foldl (popStep cfg) []

/-- Descending-population order used by
`.sort((a, b) => b[1] - a[1])`: `a` may precede `b` iff `b.2 ≤ a.2`. -/
def popDescOrder : (String × ℚ) → (String × ℚ) → Prop := fun a b => b.2 ≤ a.2

instance : DecidableRel popDescOrder :=
  fun a b => inferInstanceAs (Decidable (b.2 ≤ a.2))

instance : IsTotal (String × ℚ) popDescOrder := ⟨fun a b => le_total b.2 a.2⟩

instance : IsTrans (String × ℚ) popDescOrder :=
  ⟨fun _ _ _ h1 h2 => le_trans h2 h1⟩

/-- The `topStates` selection: stable descending sort by population, first `topNStates`
entries, state names only.  (`Array.prototype.sort` is stable and the
comparator is a total preorder, so the stable insertion sort is extensionally
the JavaScript sort.) -/
def selectTopStates (cfg : IngestConfig) (m : List (String × ℚ)) : List String :=
  ((List.insertionSort popDescOrder m).take cfg.topNStates).map (·.1)

/-- One per-state aggregation record (pre-finalization). -/
structure AggState where
  state : String
  population : ℚ
  totalRevenue : ℚ
  breakdown : List (String × ℚ)
deriving DecidableEq

/-- Aggregation accumulator: the `stateAggregation` map plus the
`taxTypeOrder` first-seen list (`taxTypeSeen` is exactly membership in that
list, so it is not carried separately). -/
structure AggAcc where
  agg : List (String × AggState)
  taxTypeOrder : List String
deriving DecidableEq

/-- Does this tax row pass the year filter? -/
def taxYearKeeps (cfg : IngestConfig) (row : RawRecord) : Bool :=
  match jsToNumber (getField row cfg.columns.taxYear) with
  | some y => decide (y = cfg.year)
  | none => true

/-- Loop body of the tax aggregation pass (ingest-state-tax-data.mjs
lines 174–212). -/
def taxStep (cfg : IngestConfig) (popMap : List (String × ℚ))
    (topSet : List String) (acc : AggAcc) (row : RawRecord) : AggAcc :=
  if taxYearKeeps cfg row = false then acc
  else
    let state := normalizeState (getField row cfg.columns.taxState)
    if state ∉ topSet then acc
    else
      let rawTaxType := strTrim (jsToString (jsCoalesce (getField row cfg.columns.taxTaxType) (.str "")))
      if rawTaxType = "" then acc
      else
        let taxTypeKey := (lookupList cfg.taxTypeMap rawTaxType).getD (toTaxTypeKey (.str rawTaxType))
        let order :=
          if taxTypeKey ∈ acc.taxTypeOrder then acc.taxTypeOrder
          else acc.taxTypeOrder ++ [taxTypeKey]
        let stateTax := parseNumeric (getField row cfg.columns.taxStateRevenue)
        let localTax := parseNumeric (getField row cfg.columns.taxLocalRevenue)
        let totalTax := stateTax + localTax
        let existing := (omapGet? acc.agg state).getD
          { state := state, population := (omapGet? popMap state).getD 0
            totalRevenue := 0, breakdown := [] }
        let existing :=
          { existing with
            breakdown := omapSet existing.breakdown taxTypeKey
              (((omapGet? existing.breakdown taxTypeKey).getD 0) + totalTax)
            totalRevenue := existing.totalRevenue + totalTax }
        { agg := omapSet acc.agg state existing, taxTypeOrder := order }

/-- A finalized output state record. -/
structure OutState where
  state : String
  population : ℚ
  totalRevenue : ℚ
  perCapitaTotal : ℚ
  breakdown : List (String × ℚ)
deriving DecidableEq

/-- Finalization of one aggregated state (ingest-state-tax-data.mjs
lines 214–224): `population || 0`, per-capita, `Math.round`, `toFixed(2)`. -/
def finalizeState (s : AggState) : OutState :=
  let population := if s.population = 0 then (0 : ℚ) else s.population
  let perCapitaTotal := if 0 < population then s.totalRevenue / population else 0
  { state := s.state
    population := s.population
    totalRevenue := jsRound s.totalRevenue
    perCapitaTotal := round2 perCapitaTotal
    breakdown := s.breakdown }

/-- Descending order on rounded total revenue used by
`.sort((a, b) => b.totalRevenue - a.totalRevenue)`. -/
def revDescOrder : OutState → OutState → Prop :=
  fun a b => b.totalRevenue ≤ a.totalRevenue

instance : DecidableRel revDescOrder :=
  fun a b => inferInstanceAs (Decidable (b.totalRevenue ≤ a.totalRevenue))

instance : IsTotal OutState revDescOrder :=
  ⟨fun a b => le_total b.totalRevenue a.totalRevenue⟩

instance : IsTrans OutState revDescOrder :=
  ⟨fun _ _ _ h1 h2 => le_trans h2 h1⟩

/-- The output payload.  The constant metadata fields (`currency`, `scope`,
`notes`) are omitted; `generatedAt` is the timestamp argument. -/
structure Payload where
  year : ℚ
  topN : ℕ
  generatedAt : String
  taxTypes : List (String × String)
  states : List OutState
deriving DecidableEq

/-- The `run` entry point (ingest-state-tax-data.mjs lines 129–250) from the point where both
row lists have been read: build the population map (failing when it is
empty), select the top states, aggregate tax rows, finalize and sort. -/
def runIngest (cfg : IngestConfig) (taxRows populationRows : List RawRecord)
    (now : String) : Except String Payload :=
  let popMap := buildPopulationMap cfg populationRows
  if popMap = [] then .error "No population rows found for the configured year."
  else
    let topStates := selectTopStates cfg popMap
    let acc := taxRows.foldl (taxStep cfg popMap topStates) ⟨[], []⟩
    let states :=
      List.insertionSort revDescOrder ((acc.agg.map (·.2)).map finalizeState)
    .ok
      { year := cfg.year
        topN := cfg.topNStates
        generatedAt := now
        taxTypes := acc.taxTypeOrder.map
          (fun key => (key, (lookupList cfg.taxTypeLabels key).getD key))
        states := states }

/-! ### Source Row Reader
(`parseSourceRows` / `parseCensusApiJson` / `parseCsv`,
normalize-census-sources.mjs lines 99–150)

`JSON.parse` is modelled by a recursive-descent parser for JSON values:
`null` / `true` / `false`, decimal numbers, strings with the simple escapes
(`\uXXXX` escapes are outside the subset), arrays and objects.  Indexing a
data row (`row[index]`) models full JavaScript property-access semantics,
including the `TypeError` thrown when the row is `null`.
`Papa.parse` (header mode, `skipEmptyLines`) is modelled as a full-stream
scanner: delimiter auto-detection over PapaParse's candidate list (an
undetectable delimiter is a reported error, as for single-column content),
double-quoted fields that may contain delimiters and newlines, and reported
row errors (unterminated or misplaced quotes, field-count mismatches against
the header) — the "malformed rows" the source turns into a thrown parse
error. -/

/-- A parsed JSON value. -/
inductive Json where
  | null
  | bool (b : Bool)
  | num (q : ℚ)
  | str (s : String)
  | arr (xs : List Json)
  | obj (kvs : List (String × Json))

/-- JSON insignificant whitespace. -/
def skipWs (cs : List Char) : List Char :=
  cs.dropWhile (fun c => decide (c = ' ') || decide (c = '\t') || decide (c = '\n') || decide (c = '\r'))

/-- The character opening a JSON object. -/
def openBraceChar : Char := Char.ofNat 123

/-- The character closing a JSON object. -/
def closeBraceChar : Char := Char.ofNat 125

/-- JSON string body after the opening quote; returns the characters and the
input after the closing quote. -/
def jpStrChars : List Char → Option (List Char × List Char)
  | [] => none
  | '"' :: rest => some ([], rest)
  | '\\' :: '"' :: rest => (jpStrChars rest).map (fun p => ('"' :: p.1, p.2))
  | '\\' :: '\\' :: rest => (jpStrChars rest).map (fun p => ('\\' :: p.1, p.2))
  | '\\' :: '/' :: rest => (jpStrChars rest).map (fun p => ('/' :: p.1, p.2))
  | '\\' :: 'n' :: rest => (jpStrChars rest).map (fun p => ('\n' :: p.1, p.2))
  | '\\' :: 't' :: rest => (jpStrChars rest).map (fun p => ('\t' :: p.1, p.2))
  | '\\' :: 'r' :: rest => (jpStrChars rest).map (fun p => ('\r' :: p.1, p.2))
  | '\\' :: _ => none
  | c :: rest => (jpStrChars rest).map (fun p => (c :: p.1, p.2))

/-- JSON number: optional minus, integer part without leading zeros, optional
fraction and exponent. -/
def jpNumber (cs : List Char) : Option (ℚ × List Char) :=
  let signed : Bool × List Char :=
    match cs with
    | '-' :: r => (true, r)
    | _ => (false, cs)
  let neg := signed.1
  let cs1 := signed.2
  let ip := cs1.takeWhile Char.isDigit
  if ip = [] then none
  else if 1 < ip.length ∧ ip.headD '0' = '0' then none
  else
    let cs2 := cs1.drop ip.length
    let withFrac : Option (ℚ × List Char) :=
      match cs2 with
      | '.' :: r =>
        let fp := r.takeWhile Char.isDigit
        if fp = [] then none
        else some ((digitsToNat ip : ℚ) + fracToRat fp, r.drop fp.length)
      | _ => some ((digitsToNat ip : ℚ), cs2)
    match withFrac with
    | none => none
    | some (mantissa, cs3) =>
      match cs3 with
      | 'e' :: r => jpExpTail mantissa neg r
      | 'E' :: r => jpExpTail mantissa neg r
      | _ => some (if neg then -mantissa else mantissa, cs3)
where
  /-- Exponent digits with optional sign, applied to the mantissa. -/
  jpExpTail (mantissa : ℚ) (neg : Bool) (r : List Char) : Option (ℚ × List Char) :=
    let signedE : Bool × List Char :=
      match r with
      | '+' :: r2 => (false, r2)
      | '-' :: r2 => (true, r2)
      | _ => (false, r)
    let ds := signedE.2.takeWhile Char.isDigit
    if ds = [] then none
    else
      let mag : ℚ := (10 : ℚ) ^ (digitsToNat ds)
      let scaled := if signedE.1 then mantissa / mag else mantissa * mag
      some (if neg then -scaled else scaled, signedE.2.drop ds.length)

mutual

/-- JSON value parser (fuel-bounded; the driver supplies ample fuel). -/
def jpVal : ℕ → List Char → Option (Json × List Char)
  | 0, _ => none
  | fuel + 1, cs =>
    match cs with
    | 'n' :: 'u' :: 'l' :: 'l' :: r => some (.null, r)
    | 't' :: 'r' :: 'u' :: 'e' :: r => some (.bool true, r)
    | 'f' :: 'a' :: 'l' :: 's' :: 'e' :: r => some (.bool false, r)
    | '"' :: r => (jpStrChars r).map (fun p => (.str ⟨p.1⟩, p.2))
    | '[' :: r =>
      match skipWs r with
      | ']' :: r2 => some (.arr [], r2)
      | r2 => jpArrElems fuel r2 []
    | c :: r =>
      if c = openBraceChar then
        match skipWs r with
        | [] => none
        | d :: r2 =>
          if d = closeBraceChar then some (.obj [], r2)
          else jpObjMembers fuel (d :: r2) []
      else (jpNumber (c :: r)).map (fun p => (.num p.1, p.2))
    | [] => none

/-- Array elements after at least one value is known to follow. -/
def jpArrElems : ℕ → List Char → List Json → Option (Json × List Char)
  | 0, _, _ => none
  | fuel + 1, cs, accRev =>
    match jpVal fuel (skipWs cs) with
    | none => none
    | some (v, rest) =>
      match skipWs rest with
      | ',' :: r2 => jpArrElems fuel r2 (v :: accRev)
      | ']' :: r2 => some (.arr (v :: accRev).reverse, r2)
      | _ => none

/-- Object members after at least one member is known to follow.  Duplicate
keys follow `JSON.parse`: the later member wins, in the earlier position. -/
def jpObjMembers : ℕ → List Char → List (String × Json) → Option (Json × List Char)
  | 0, _, _ => none
  | fuel + 1, cs, acc =>
    match skipWs cs with
    | '"' :: r =>
      match jpStrChars r with
      | none => none
      | some (key, r2) =>
        match skipWs r2 with
        | ':' :: r3 =>
          match jpVal fuel (skipWs r3) with
          | none => none
          | some (v, r4) =>
            match skipWs r4 with
            | ',' :: r5 => jpObjMembers fuel r5 (omapSet acc (⟨key⟩ : String) v)
            | d :: r5 =>
              if d = closeBraceChar then
                some (.obj (omapSet acc (⟨key⟩ : String) v), r5)
              else none
            | [] => none
        | _ => none
    | _ => none

end

/-- Model of `JSON.parse`. -/
def jsonParse (s : String) : Except String Json :=
  match jpVal (s.length * 2 + 2) (skipWs s.toList) with
  | some (v, rest) =>
    if skipWs rest = [] then .ok v else .error "Unexpected non-whitespace character after JSON data"
  | none => .error "Unexpected token in JSON"

mutual

/-- Rendering of one array element inside `Array.prototype.join`
(`null`/`undefined` render empty; everything else as `String(element)`). -/
def jsonArrayElemString : Json → String
  | .null => ""
  | .bool b => if b then "true" else "false"
  | .num q => jsToString (.num q)
  | .str s => s
  | .arr xs => jsonArrayJoin xs
  | .obj _ => "[object Object]"

/-- JavaScript `String(array)` = `array.join(',')`. -/
def jsonArrayJoin : List Json → String
  | [] => ""
  | [x] => jsonArrayElemString x
  | x :: y :: xs => jsonArrayElemString x ++ "," ++ jsonArrayJoin (y :: xs)

end

/-- The `ToPropertyKey` conversion for a header cell used as an object key
(`output[header] = ...`): the cell's JavaScript string conversion. -/
def jsonPropKey : Json → String
  | .str s => s
  | .num q => jsToString (.num q)
  | .null => "null"
  | .bool b => if b then "true" else "false"
  | .arr xs => jsonArrayJoin xs
  | .obj _ => "[object Object]"

/-- A parsed JSON cell as a JavaScript value.  Arrays and objects are carried
as their JavaScript string conversions: the pipeline only ever observes a
cell value through `String(...)`, `Number(...)` (which routes non-primitive
values through `ToPrimitive`, i.e. the same string) and the coalescing /
truthiness tests, on all of which the string conversion is observationally
equivalent for this program (the one nominal difference, truthiness of `[]`
versus `""`, is unobservable: `parseNumeric` maps both to 0). -/
def jsonToJVal : Json → JVal
  | .null => .null
  | .bool b => .bool b
  | .num q => .num q
  | .str s => .str s
  | .arr xs => .str (jsonArrayJoin xs)
  | .obj _ => .str "[object Object]"

/-- JavaScript `row[index]` for a data row that need not be an array:
property access on `null` throws a `TypeError`; an array yields the element
(or `undefined` past the end); a string yields the character; an object
yields the property named by the decimal index; any other primitive yields
`undefined`. -/
def jsonIndex : Json → ℕ → Except String JVal
  | .null, _ => .error "TypeError: Cannot read properties of null"
  | .arr xs, i =>
    .ok (match xs.get? i with
         | some v => jsonToJVal v
         | none => .undefined)
  | .str s, i =>
    .ok (match s.toList.get? i with
         | some c => .str ⟨[c]⟩
         | none => .undefined)
  | .obj kvs, i => .ok (((omapGet? kvs (toString i)).map jsonToJVal).getD .undefined)
  | _, _ => .ok .undefined

/-- The zipping loop `headers.forEach((header, index) => output[header] =
row[index])`: the first throwing access aborts the loop. -/
def censusZipFields (row : Json) : List (ℕ × Json) → RawRecord →
    Except String RawRecord
  | [], out => .ok out
  | (i, h) :: rest, out =>
    match jsonIndex row i with
    | .error e => .error e
    | .ok v => censusZipFields row rest (omapSet out (jsonPropKey h) v)

/-- One data row zipped against the header labels. -/
def censusZipRow (headers : List Json) (row : Json) : Except String RawRecord :=
  censusZipFields row headers.enum []

/-- The body of `parsed.slice(1).map(row => ...)`: rows are zipped left to
right and the first thrown `TypeError` propagates. -/
def censusZipRows (headers : List Json) : List Json → Except String (List RawRecord)
  | [] => .ok []
  | r :: rs =>
    match censusZipRow headers r with
    | .error e => .error e
    | .ok rec =>
      match censusZipRows headers rs with
      | .error e => .error e
      | .ok recs => .ok (rec :: recs)

/-- The `parseCensusApiJson` reader (normalize-census-sources.mjs lines
117–134): `JSON.parse`, then require an array of length at least 2 whose
first element is an array; zip every later row against the first row's
labels (which throws on a `null` data row when there is at least one
header label). -/
def parseCensusApiJson (content : String) : Except String (List RawRecord) :=
  match jsonParse content with
  | .error e => .error e
  | .ok parsed =>
    match parsed with
    | .arr (Json.arr headers :: rest) =>
      if rest.isEmpty then .error "Unexpected Census API JSON format"
      else censusZipRows headers rest
    | _ => .error "Unexpected Census API JSON format"

/-- PapaParse's candidate delimiters, in guessing order: comma, tab, pipe,
semicolon, ASCII record separator, ASCII unit separator. -/
def CSV_DELIMITERS : List Char :=
  [',', '\t', '|', ';', Char.ofNat 30, Char.ofNat 31]

/-- Field-scanner state: inside a raw field, inside a double-quoted field,
or just past a closing quote. -/
inductive CsvMode where
  | raw
  | quoted
  | afterQuote

/-- Full-stream CSV scanner for a given delimiter.  Records are separated by
`\n` or `\r\n`; a field starting with a double quote is quoted and may
contain delimiters and newlines, with `""` as an escaped quote; `none`
models a PapaParse row error (`MissingQuotes` for an unterminated quote,
`InvalidQuotes` for data after a closing quote).  Arguments: state, input,
current field (reversed), current record (reversed), finished records
(reversed). -/
def csvScan (delim : Char) : CsvMode → List Char → List Char → List String →
    List (List String) → Option (List (List String))
  | .raw, [], fieldAcc, recAcc, out =>
    some ((((⟨fieldAcc.reverse⟩ : String) :: recAcc).reverse :: out).reverse)
  | .raw, c :: rest, fieldAcc, recAcc, out =>
    if c = delim then
      csvScan delim .raw rest [] ((⟨fieldAcc.reverse⟩ : String) :: recAcc) out
    else if c = '\n' then
      csvScan delim .raw rest [] []
        ((((⟨fieldAcc.reverse⟩ : String) :: recAcc).reverse) :: out)
    else if c = '\r' then
      if rest.head? = some '\n' then
        csvScan delim .raw rest.tail [] []
          ((((⟨fieldAcc.reverse⟩ : String) :: recAcc).reverse) :: out)
      else csvScan delim .raw rest ('\r' :: fieldAcc) recAcc out
    else if c = '"' ∧ fieldAcc = [] then
      csvScan delim .quoted rest [] recAcc out
    else
      csvScan delim .raw rest (c :: fieldAcc) recAcc out
  | .quoted, [], _, _, _ => none
  | .quoted, c :: rest, fieldAcc, recAcc, out =>
    if c = '"' then
      if rest.head? = some '"' then
        csvScan delim .quoted rest.tail ('"' :: fieldAcc) recAcc out
      else csvScan delim .afterQuote rest fieldAcc recAcc out
    else
      csvScan delim .quoted rest (c :: fieldAcc) recAcc out
  | .afterQuote, [], fieldAcc, recAcc, out =>
    some ((((⟨fieldAcc.reverse⟩ : String) :: recAcc).reverse :: out).reverse)
  | .afterQuote, c :: rest, fieldAcc, recAcc, out =>
    if c = delim then
      csvScan delim .raw rest [] ((⟨fieldAcc.reverse⟩ : String) :: recAcc) out
    else if c = '\n' then
      csvScan delim .raw rest [] []
        ((((⟨fieldAcc.reverse⟩ : String) :: recAcc).reverse) :: out)
    else if c = '\r' then
      if rest.head? = some '\n' then
        csvScan delim .raw rest.tail [] []
          ((((⟨fieldAcc.reverse⟩ : String) :: recAcc).reverse) :: out)
      else none
    else none
termination_by _ cs _ _ _ => cs.length
decreasing_by all_goals simp [List.length_tail]; try omega

/-- All records of the content for a given delimiter, or `none` on a quoting
error anywhere in the input. -/
def csvParseRecords (delim : Char) (content : String) :
    Option (List (List String)) :=
  csvScan delim .raw content.toList [] [] []

/-- PapaParse `testEmptyLine` under `skipEmptyLines: true`: a record whose
only field is empty. -/
def isEmptyRecord (r : List String) : Bool := decide (r = [""])

/-- Sum of absolute differences of consecutive field counts
(PapaParse's `delta` statistic). -/
def fieldCountDelta : ℕ → List ℕ → ℕ
  | _, [] => 0
  | prev, c :: cs =>
    (if prev ≥ c then prev - c else c - prev) + fieldCountDelta c cs

/-- The (delta, average field count) statistics PapaParse computes for one
candidate delimiter over a 10-row preview; `none` when the candidate's parse
fails or the preview has no countable rows.  (PapaParse previews with its
lenient parser; this model previews via the strict scan, which agrees
whenever the input's quoting is well formed.) -/
def delimStats (delim : Char) (content : String) : Option (ℕ × ℚ) :=
  match csvParseRecords delim content with
  | none => none
  | some recs =>
    let counted := (recs.take 10).filter (fun r => !(isEmptyRecord r))
    match counted.map (fun r => r.length) with
    | [] => none
    | f :: fs =>
      some (fieldCountDelta f fs, ((f :: fs).sum : ℚ) / (f :: fs).length)

/-- PapaParse `guessDelimiter`: the candidate with the smallest delta whose
average field count exceeds 1.99 (on equal delta a later candidate wins);
`none` — an `UndetectableDelimiter` error entry — when no candidate
qualifies, e.g. for single-column content. -/
def guessDelimiter (content : String) : Option Char :=
  (CSV_DELIMITERS.foldl
    (fun (best : Option (ℕ × Char)) delim =>
      match delimStats delim content with
      | none => best
      | some (delta, avg) =>
        if (199 : ℚ)/100 < avg then
          match best with
          | none => some (delta, delim)
          | some (bd, bdelim) =>
            if delta ≤ bd then some (delta, delim) else some (bd, bdelim)
        else best)
    none).map Prod.snd

/-- The `parseCsv` reader (normalize-census-sources.mjs lines 99–115): parse
with an auto-detected delimiter, header row and `skipEmptyLines`, and fail
whenever the parser reports errors: an undetectable delimiter, malformed
quoting, or a data row whose field count differs from the header's. -/
def parseCsv (content : String) : Except String (List RawRecord) :=
  match guessDelimiter content with
  | none => .error "CSV parsing failed: Unable to auto-detect delimiting character"
  | some delim =>
    match csvParseRecords delim content with
    | none => .error "CSV parsing failed: malformed quotes"
    | some recs =>
      let rows := recs.filter (fun r => !(isEmptyRecord r))
      match rows with
      | [] => .ok []
      | header :: dataRows =>
        if dataRows.all (fun r => decide (r.length = header.length)) then
          .ok (dataRows.map (fun r =>
            (header.zip r).foldl (fun out p => omapSet out p.1 (.str p.2)) []))
        else .error "CSV parsing failed: row field count differs from header"

/-- The `parseSourceRows` dispatcher (normalize-census-sources.mjs lines
136–150): fail on blank content, dispatch on a leading `[` to the Census
JSON reader, otherwise to the CSV reader. -/
def parseSourceRows (content : String) : Except String (List RawRecord) :=
  let trimmed := strTrim content
  if trimmed = "" then .error "Source file is empty"
  else
    match trimmed.toList with
    | '[' :: _ => parseCensusApiJson content
    | _ => parseCsv content

/-! ## Supporting lemmas for the normalizer claims -/

/-- A successful `omapGet?` returns the value of some entry of the map. -/
theorem omapGet?_mem {κ ν : Type} [DecidableEq κ] (m : List (κ × ν)) (k : κ)
    (v : ν) (h : omapGet? m k = some v) : ∃ k', (k', v) ∈ m := by
  induction m with
  | nil => simp [omapGet?_nil] at h
  | cons a m ih =>
    rw [omapGet?_cons] at h
    by_cases hh : a.1 = k
    · simp only [hh, if_pos, Option.some.injEq] at h
      exact ⟨a.1, by simp [← h]⟩
    · simp only [hh, if_neg, not_false_iff] at h
      rcases ih h with ⟨k', hk⟩
      exact ⟨k', List.mem_cons_of_mem a hk⟩

/-- The bucket looked up at any key (or freshly created with a roster state)
has a roster state, provided the map's invariant holds. -/
theorem getD_state_valid (m : List (BucketKey × TaxBucket))
    (hm : ∀ p ∈ m, p.2.state ∈ VALID_STATES) (k : BucketKey) (d : TaxBucket)
    (hd : d.state ∈ VALID_STATES) :
    ((omapGet? m k).getD d).state ∈ VALID_STATES := by
  rcases h : omapGet? m k with _ | w
  · simpa using hd
  · rcases omapGet?_mem _ _ _ h with ⟨k', hk⟩
    simpa using hm (k', w) hk

/-- Every bucket value produced by the statistical-code accumulation loop has
a roster state: one step keeps the invariant. -/
theorem censusTaxStep_state_valid (cfgYear : ℚ) (m : List (BucketKey × TaxBucket))
    (row : RawRecord) (hm : ∀ p ∈ m, p.2.state ∈ VALID_STATES) :
    ∀ p ∈ censusTaxStep cfgYear m row, p.2.state ∈ VALID_STATES := by
  intro p hp
  simp only [censusTaxStep] at hp
  split at hp
  · exact hm p hp
  · rename_i hguard
    push_neg at hguard
    split at hp
    · exact hm p hp
    · rename_i taxType htax
      rcases mem_omapSet _ _ _ _ hp with heq | hmem
      · subst heq
        dsimp only
        split <;> split <;> exact getD_state_valid m hm _ _ hguard.2.1
      · exact hm p hmem

/-- The whole statistical-code accumulation keeps only roster states. -/
theorem normalizeTaxBuckets_state_valid (rows : List RawRecord) (cfgYear : ℚ) :
    ∀ p ∈ normalizeTaxBuckets rows cfgYear, p.2.state ∈ VALID_STATES := by
  suffices h : ∀ m, (∀ p ∈ m, p.2.state ∈ VALID_STATES) →
      ∀ p ∈ rows.foldl (censusTaxStep cfgYear) m, p.2.state ∈ VALID_STATES by
    exact h [] (by simp)
  induction rows with
  | nil => intro m hm; simpa using hm
  | cons row rows ih =>
    intro m hm
    exact ih _ (censusTaxStep_state_valid cfgYear m row hm)

/-! ## Claims -/

/-- C1: the numeric coercion function is total into the finite numbers
(its codomain `ℚ` models exactly the finite JavaScript doubles, so it never
raises and never returns a non-finite value); a finite numeric input is
returned as-is, a non-finite numeric input yields 0, and the four spec
examples hold: `"$1,234" ↦ 1234`, `"(500)" ↦ -500`, `"" ↦ 0`, `"abc" ↦ 0`. -/
theorem C1_parseNumeric_total_and_examples :
    (∀ q : ℚ, parseNumeric (.num q) = q) ∧
    parseNumeric .nonfinite = 0 ∧
    parseNumeric (.str "$1,234") = 1234 ∧
    parseNumeric (.str "(500)") = -500 ∧
    parseNumeric (.str "") = 0 ∧
    parseNumeric (.str "abc") = 0 :=
  ⟨fun _ => rfl, rfl, by with_unfolding_all rfl, by with_unfolding_all rfl, rfl,
    by with_unfolding_all rfl⟩

/-- A statistical-code row whose parenthesized (negative) amount drives the
accumulated bucket to a combined amount of −5. -/
def c2Row : RawRecord :=
  [("state", .str "Texas"), ("year", .num 2023), ("AGG_DESC", .str "LF0009"),
   ("GOVTYPE", .str "002"), ("AMOUNT", .str "(5)")]

/-- C2 counterexample: the accumulated bucket for `c2Row` has combined
state+local amount −5 ≠ 0, yet the normalized output discards it, because the
code keeps a bucket iff one of the amounts is strictly positive, not iff the
combined amount is nonzero. -/
theorem C2_zero_filter_counterexample :
    (normalizeTaxBuckets [c2Row] 2023).map (·.2) =
      [{ state := "Texas", year := some 2023, tax_type := "Property tax",
         state_tax_revenue := -5, local_tax_revenue := 0 }] ∧
    ((-5 : ℚ) + 0 ≠ 0) ∧
    normalizeTaxFromCensusApiRows [c2Row] 2023 = [] :=
  ⟨by with_unfolding_all rfl, by norm_num, by with_unfolding_all rfl⟩

/-- C2 amended: a `(state, year, category)` bucket is kept in the output iff
its state-level amount is strictly positive or its local-level amount is
strictly positive (not: iff the combined amount is nonzero). -/
theorem C2_positive_filter_amended (rows : List RawRecord) (cfgYear : ℚ)
    (b : TaxBucket) :
    b ∈ normalizeTaxFromCensusApiRows rows cfgYear ↔
      b ∈ (normalizeTaxBuckets rows cfgYear).map (·.2) ∧
        (0 < b.state_tax_revenue ∨ 0 < b.local_tax_revenue) := by
  simp [normalizeTaxFromCensusApiRows, List.mem_filter]

/-- A well-formed statistical-code row for Texas whose year, 1999, differs
from the configured year 2023. -/
def c3Row : RawRecord :=
  [("state", .str "Texas"), ("year", .num 1999), ("AGG_DESC", .str "LF0009"),
   ("GOVTYPE", .str "002"), ("AMOUNT", .str "5")]

/-- The bucket the 1999 Texas row produces. -/
def c3Bucket : TaxBucket :=
  { state := "Texas", year := some 1999, tax_type := "Property tax",
    state_tax_revenue := 5, local_tax_revenue := 0 }

/-- C3 counterexample: normalization performs no year filtering — a Texas row
for year 1999 survives statistical-code normalization with the configured
year set to 2023 and appears in the output (carrying its own year). -/
theorem C3_offyear_counterexample :
    normalizeTaxFromCensusApiRows [c3Row] 2023 = [c3Bucket] ∧
    (1999 : ℚ) ≠ 2023 :=
  ⟨by with_unfolding_all rfl, by norm_num⟩

/-- C3 amended: in both tax-normalization shapes every output row's state is
on the State Roster (rows with unrecognized states are excluded, without
error — the functions are total); but rows whose year differs from the
configured target year are NOT excluded by normalization (the year filter
happens later, in the ingestion step), as the retained 1999 row shows. -/
theorem C3_state_filter_amended :
    (∀ rows cfgYear b, b ∈ normalizeTaxFromCensusApiRows rows cfgYear →
       b.state ∈ VALID_STATES) ∧
    (∀ rows al cfgYear r, r ∈ normalizePreNormalizedTaxRows rows al cfgYear →
       r.state ∈ VALID_STATES) ∧
    normalizeTaxFromCensusApiRows [c3Row] 2023 ≠ [] := by
  refine ⟨?_, ?_, ?_⟩
  · intro rows cfgYear b hb
    have hb2 : b ∈ (normalizeTaxBuckets rows cfgYear).map (·.2) :=
      List.mem_of_mem_filter hb
    rcases List.mem_map.mp hb2 with ⟨p, hp, hpb⟩
    exact hpb ▸ normalizeTaxBuckets_state_valid rows cfgYear p hp
  · intro rows al cfgYear r hr
    have := List.of_mem_filter hr
    simp only [Bool.and_eq_true, decide_eq_true_eq] at this
    exact this.2
  · intro h
    have h5 : c3Bucket ∈ normalizeTaxFromCensusApiRows [c3Row] 2023 := by
      have he : normalizeTaxFromCensusApiRows [c3Row] 2023 = [c3Bucket] := by
        with_unfolding_all rfl
      rw [he]
      exact List.mem_singleton.mpr rfl
    rw [h] at h5
    exact absurd h5 (List.not_mem_nil _)

/-- C3 witness: the amended theorem applied to the concrete 1999 Texas row
(whose unique output bucket indeed carries a roster state). -/
theorem C3_state_filter_witness : c3Bucket.state ∈ VALID_STATES :=
  C3_state_filter_amended.1 [c3Row] 2023 c3Bucket (by
    have he : normalizeTaxFromCensusApiRows [c3Row] 2023 = [c3Bucket] := by
      with_unfolding_all rfl
    rw [he]
    exact List.mem_singleton.mpr rfl)

/-- The spec's first C9 row: Texas 2023, property code, state level,
amount "1,000". -/
def c9Row1 : RawRecord :=
  [("state", .str "Texas"), ("year", .num 2023), ("AGG_DESC", .str "LF0009"),
   ("GOVTYPE", .str "002"), ("AMOUNT", .str "1,000")]

/-- The spec's second C9 row: Texas 2023, property code, local level,
amount "500". -/
def c9Row2 : RawRecord :=
  [("state", .str "Texas"), ("year", .num 2023), ("AGG_DESC", .str "LF0009"),
   ("GOVTYPE", .str "003"), ("AMOUNT", .str "500")]

/-- C9 counterexample: on the spec's two rows, normalization does produce
exactly one bucket for Texas with state amount 1000 and local amount 500 —
but its tax category is the canonical label `"Property tax"`, not the string
`"property"` stated by the claim. -/
theorem C9_property_label_counterexample :
    normalizeTaxFromCensusApiRows [c9Row1, c9Row2] 2023 =
      [{ state := "Texas", year := some 2023, tax_type := "Property tax",
         state_tax_revenue := 1000, local_tax_revenue := 500 }] ∧
    ("Property tax" : String) ≠ "property" :=
  ⟨by with_unfolding_all rfl, by decide⟩

/-- C9 amended: the single bucket carries tax category `"Property tax"`
(the normalizer's canonical label for the property category; the short key
`property` can only appear later, through the ingestion step's configured
label remapping). -/
theorem C9_property_bucket_amended :
    normalizeTaxFromCensusApiRows [c9Row1, c9Row2] 2023 =
      [{ state := "Texas", year := some 2023, tax_type := "Property tax",
         state_tax_revenue := 1000, local_tax_revenue := 500 }] := by
  with_unfolding_all rfl

/-- C8: the ingestion pipeline is deterministic apart from the generation
timestamp — two runs on identical row lists and configuration that both
succeed produce identical `taxTypes` and identical `states` (the timestamp
only enters the payload's `generatedAt` metadata field). -/
theorem C8_deterministic (cfg : IngestConfig) (taxRows popRows : List RawRecord)
    (t1 t2 : String) (p1 p2 : Payload)
    (h1 : runIngest cfg taxRows popRows t1 = .ok p1)
    (h2 : runIngest cfg taxRows popRows t2 = .ok p2) :
    p1.taxTypes = p2.taxTypes ∧ p1.states = p2.states := by
  simp only [runIngest] at h1 h2
  by_cases hpop : buildPopulationMap cfg popRows = []
  · rw [if_pos hpop] at h1
    exact absurd h1 (by simp)
  · rw [if_neg hpop] at h1
    rw [if_neg hpop] at h2
    simp only [Except.ok.injEq] at h1 h2
    rw [← h1, ← h2]
    exact ⟨rfl, rfl⟩

/-- A configuration matching the repository's canonical raw CSV schema
(`data/config/ingestion.config.json` defaults): year 2023, top 2 states,
no tax-type overrides. -/
def sampleCfg : IngestConfig :=
  { year := 2023
    topNStates := 2
    columns :=
      { taxState := "state", taxYear := "year", taxTaxType := "tax_type"
        taxStateRevenue := "state_tax_revenue"
        taxLocalRevenue := "local_tax_revenue"
        popState := "state", popYear := "year", popPopulation := "population" }
    taxTypeMap := []
    taxTypeLabels := [] }

/-- A canonical-schema population row. -/
def mkPopRow (s y p : String) : RawRecord :=
  [("state", .str s), ("year", .str y), ("population", .str p)]

/-- A canonical-schema tax row (state-level amount only). -/
def mkTaxRow (s y t a : String) : RawRecord :=
  [("state", .str s), ("year", .str y), ("tax_type", .str t),
   ("state_tax_revenue", .str a), ("local_tax_revenue", .str "0")]

/-- The payload of the C8 witness run, parametrized by the timestamp. -/
def c8Payload (t : String) : Payload :=
  { year := 2023
    topN := 2
    generatedAt := t
    taxTypes := [("property_tax", "property_tax")]
    states :=
      [{ state := "Texas", population := 100, totalRevenue := 10,
         perCapitaTotal := 1/10, breakdown := [("property_tax", 10)] }] }

/-- C8 witness: two concrete runs with different timestamps, via the
determinism theorem. -/
theorem C8_deterministic_witness :
    (c8Payload "2025-01-01T00:00:00.000Z").taxTypes =
      (c8Payload "2025-02-02T00:00:00.000Z").taxTypes ∧
    (c8Payload "2025-01-01T00:00:00.000Z").states =
      (c8Payload "2025-02-02T00:00:00.000Z").states :=
  C8_deterministic sampleCfg [mkTaxRow "Texas" "2023" "Property tax" "10"]
    [mkPopRow "Texas" "2023" "100"] "2025-01-01T00:00:00.000Z"
    "2025-02-02T00:00:00.000Z" _ _ (by with_unfolding_all rfl)
    (by with_unfolding_all rfl)

/-- Overwrite one field of a record (`row[k] = v`); used to state that a row
with an unparseable year is processed exactly as if its year matched the
configured year. -/
def setField (row : RawRecord) (k : String) (v : JVal) : RawRecord :=
  omapSet row k v

theorem getField_setField_self (row : RawRecord) (k : String) (v : JVal) :
    getField (setField row k v) k = v := by
  simp [getField, setField, omapGet?_set_self]

theorem getField_setField_ne (row : RawRecord) (k k' : String) (v : JVal)
    (h : k' ≠ k) : getField (setField row k v) k' = getField row k' := by
  simp [getField, setField, omapGet?_set_ne _ _ _ _ h]

/-- C10: in both ingestion loops the year filter only drops rows whose year
field parses to a finite number different from the configured year; a row
whose year does not parse to a finite number is retained and processed
exactly as if its year were the configured year (assuming the configured
year column is distinct from the other configured columns, as in any
sensible configuration). -/
theorem C10_year_filter (cfg : IngestConfig) (m popMap : List (String × ℚ))
    (topSet : List String) (acc : AggAcc) (row : RawRecord) :
    ((jsToNumber (getField row cfg.columns.popYear) = none →
        cfg.columns.popYear ≠ cfg.columns.popState →
        cfg.columns.popYear ≠ cfg.columns.popPopulation →
        popStep cfg m row =
          popStep cfg m (setField row cfg.columns.popYear (.num cfg.year))) ∧
      (∀ y, jsToNumber (getField row cfg.columns.popYear) = some y →
        y ≠ cfg.year → popStep cfg m row = m)) ∧
    ((jsToNumber (getField row cfg.columns.taxYear) = none →
        cfg.columns.taxYear ≠ cfg.columns.taxState →
        cfg.columns.taxYear ≠ cfg.columns.taxTaxType →
        cfg.columns.taxYear ≠ cfg.columns.taxStateRevenue →
        cfg.columns.taxYear ≠ cfg.columns.taxLocalRevenue →
        taxStep cfg popMap topSet acc row =
          taxStep cfg popMap topSet acc
            (setField row cfg.columns.taxYear (.num cfg.year))) ∧
      (∀ y, jsToNumber (getField row cfg.columns.taxYear) = some y →
        y ≠ cfg.year → taxStep cfg popMap topSet acc row = acc)) := by
  refine ⟨⟨?_, ?_⟩, ⟨?_, ?_⟩⟩
  · intro hnone hne1 hne2
    have hset : jsToNumber (getField
        (setField row cfg.columns.popYear (.num cfg.year)) cfg.columns.popYear) =
        some cfg.year := by
      rw [getField_setField_self]
      rfl
    simp only [popStep, popYearKeeps, hnone, hset,
      getField_setField_ne row _ _ _ (Ne.symm hne1),
      getField_setField_ne row _ _ _ (Ne.symm hne2)]
    simp
  · intro y hy hyne
    simp only [popStep, popYearKeeps, hy]
    simp [hyne]
  · intro hnone hne1 hne2 hne3 hne4
    have hset : jsToNumber (getField
        (setField row cfg.columns.taxYear (.num cfg.year)) cfg.columns.taxYear) =
        some cfg.year := by
      rw [getField_setField_self]
      rfl
    simp only [taxStep, taxYearKeeps, hnone, hset,
      getField_setField_ne row _ _ _ (Ne.symm hne1),
      getField_setField_ne row _ _ _ (Ne.symm hne2),
      getField_setField_ne row _ _ _ (Ne.symm hne3),
      getField_setField_ne row _ _ _ (Ne.symm hne4)]
    simp
  · intro y hy hyne
    simp only [taxStep, taxYearKeeps, hy]
    simp [hyne]

/-- A population row whose year field, `"N/A"`, does not parse. -/
def c10Row : RawRecord :=
  [("state", .str "Texas"), ("year", .str "N/A"), ("population", .str "100")]

/-- C10 witness: the concrete `"N/A"`-year row is processed by the population
loop exactly as if its year were 2023. -/
theorem C10_year_filter_witness :
    popStep sampleCfg [] c10Row =
      popStep sampleCfg [] (setField c10Row "year" (.num 2023)) :=
  (C10_year_filter sampleCfg [] [] [] ⟨[], []⟩ c10Row).1.1
    (by with_unfolding_all rfl) (by decide) (by decide)

/-! ## Aggregation invariant: running total = sum of the breakdown -/

/-- The aggregation invariant for one record. -/
def totalMatchesBreakdown (a : AggState) : Prop :=
  a.totalRevenue = (a.breakdown.map Prod.snd).sum

/-- The record looked up at any key (or freshly created with an invariant
default) satisfies the invariant, provided all map entries do. -/
theorem getD_total_inv (m : List (String × AggState))
    (hm : ∀ p ∈ m, totalMatchesBreakdown p.2) (k : String) (d : AggState)
    (hd : totalMatchesBreakdown d) :
    totalMatchesBreakdown ((omapGet? m k).getD d) := by
  rcases h : omapGet? m k with _ | w
  · simpa using hd
  · rcases omapGet?_mem _ _ _ h with ⟨k', hk⟩
    simpa using hm (k', w) hk

/-- One aggregation step keeps the invariant. -/
theorem taxStep_total_inv (cfg : IngestConfig) (popMap : List (String × ℚ))
    (topSet : List String) (acc : AggAcc) (row : RawRecord)
    (h : ∀ p ∈ acc.agg, totalMatchesBreakdown p.2) :
    ∀ p ∈ (taxStep cfg popMap topSet acc row).agg, totalMatchesBreakdown p.2 := by
  intro p hp
  simp only [taxStep] at hp
  split at hp
  · exact h p hp
  · split at hp
    · exact h p hp
    · split at hp
      · exact h p hp
      · simp only at hp
        rcases mem_omapSet _ _ _ _ hp with heq | hmem
        · subst heq
          have hbase : totalMatchesBreakdown
              ((omapGet? acc.agg
                  (normalizeState (getField row cfg.columns.taxState))).getD
                { state := normalizeState (getField row cfg.columns.taxState)
                  population := (omapGet? popMap
                    (normalizeState (getField row cfg.columns.taxState))).getD 0
                  totalRevenue := 0, breakdown := [] }) :=
            getD_total_inv acc.agg h _ _ (by simp [totalMatchesBreakdown])
          simp only [totalMatchesBreakdown] at hbase ⊢
          rw [sum_values_omapSet, hbase]
        · exact h p hmem

/-- The whole aggregation fold keeps the invariant. -/
theorem taxFold_total_inv (cfg : IngestConfig) (popMap : List (String × ℚ))
    (topSet : List String) (rows : List RawRecord) :
    ∀ p ∈ (rows.foldl (taxStep cfg popMap topSet) ⟨[], []⟩).agg,
      totalMatchesBreakdown p.2 := by
  suffices hgen : ∀ acc, (∀ p ∈ acc.agg, totalMatchesBreakdown p.2) →
      ∀ p ∈ (rows.foldl (taxStep cfg popMap topSet) acc).agg,
        totalMatchesBreakdown p.2 by
    exact hgen ⟨[], []⟩ (by simp)
  induction rows with
  | nil => intro acc hacc; simpa using hacc
  | cons row rows ih =>
    intro acc hacc
    exact ih _ (taxStep_total_inv cfg popMap topSet acc row hacc)

/-- Rounding zero to two decimals gives zero. -/
theorem round2_zero : round2 0 = 0 := by
  have h : ⌊(0 : ℚ) * 100 + 1/2⌋ = 0 := by
    rw [Int.floor_eq_zero_iff]
    norm_num
  rw [round2, h]
  norm_num

/-- Rounding to the nearest whole unit moves a value by at most 1. -/
theorem abs_sub_jsRound_le_one (q : ℚ) : |q - jsRound q| ≤ 1 := by
  have h1 : (⌊q + 1/2⌋ : ℚ) ≤ q + 1/2 := Int.floor_le _
  have h2 : q + 1/2 < (⌊q + 1/2⌋ : ℚ) + 1 := Int.lt_floor_add_one _
  rw [abs_le]
  constructor <;> (simp only [jsRound]; linarith)

/-- C7 amended: for every state in a successful run's payload, the sum of the
breakdown values differs from the (rounded) `totalRevenue` field by at most 1
unit, and `perCapitaTotal` equals the UNROUNDED total — i.e. the breakdown
sum — divided by the population, rounded to two decimals, when the population
is strictly positive, and 0 otherwise.  (The original claim computed the
per-capita from the rounded `totalRevenue` field, which the code does not.) -/
theorem C7_sum_and_percapita_amended (cfg : IngestConfig)
    (taxRows popRows : List RawRecord) (now : String) (p : Payload)
    (hok : runIngest cfg taxRows popRows now = .ok p) :
    ∀ st ∈ p.states,
      |(st.breakdown.map Prod.snd).sum - st.totalRevenue| ≤ 1 ∧
      st.perCapitaTotal =
        (if 0 < st.population then
          round2 ((st.breakdown.map Prod.snd).sum / st.population)
        else 0) := by
  intro st hst
  simp only [runIngest] at hok
  by_cases hpop : buildPopulationMap cfg popRows = []
  · rw [if_pos hpop] at hok
    exact absurd hok (by simp)
  · rw [if_neg hpop] at hok
    simp only [Except.ok.injEq] at hok
    subst hok
    simp only at hst
    have hst2 := (List.perm_insertionSort revDescOrder _).mem_iff.mp hst
    rcases List.mem_map.mp hst2 with ⟨a, ha, hfa⟩
    rcases List.mem_map.mp ha with ⟨pr, hpr, hpa⟩
    have hinv : totalMatchesBreakdown a :=
      hpa ▸ taxFold_total_inv cfg _ _ taxRows pr hpr
    subst hfa
    simp only [totalMatchesBreakdown] at hinv
    constructor
    · simp only [finalizeState]
      rw [← hinv]
      exact abs_sub_jsRound_le_one a.totalRevenue
    · simp only [finalizeState]
      by_cases hzero : a.population = 0
      · simp [hzero, round2_zero]
      · by_cases hposp : 0 < a.population
        · simp [hzero, hposp, hinv]
        · simp [hzero, hposp, round2_zero]

/-- The single output state of the C7 counterexample run. -/
def c7State : OutState :=
  { state := "Texas", population := 1, totalRevenue := 10,
    perCapitaTotal := 52/5, breakdown := [("property_tax", 52/5)] }

/-- The payload of the C7 counterexample run. -/
def c7Payload : Payload :=
  { year := 2023, topN := 2, generatedAt := "t"
    taxTypes := [("property_tax", "property_tax")]
    states := [c7State] }

/-- C7 counterexample: with one Texas tax row of 10.4 and population 1, the
output state has rounded `totalRevenue = 10` but `perCapitaTotal = 10.4`,
which is not `round2(totalRevenue / population) = 10` — the code divides the
unrounded total, the claim's formula divides the rounded output field. -/
theorem C7_percapita_counterexample :
    runIngest sampleCfg [mkTaxRow "Texas" "2023" "Property tax" "10.4"]
      [mkPopRow "Texas" "2023" "1"] "t" = .ok c7Payload ∧
    c7Payload.states = [c7State] ∧
    c7State.perCapitaTotal ≠ round2 (c7State.totalRevenue / c7State.population) :=
  ⟨by with_unfolding_all rfl, rfl, by with_unfolding_all decide⟩

/-- C7 witness: the amended theorem applied to the concrete counterexample
run and its single output state. -/
theorem C7_sum_and_percapita_witness :
    |(c7State.breakdown.map Prod.snd).sum - c7State.totalRevenue| ≤ 1 ∧
    c7State.perCapitaTotal =
      (if 0 < c7State.population then
        round2 ((c7State.breakdown.map Prod.snd).sum / c7State.population)
      else 0) :=
  C7_sum_and_percapita_amended sampleCfg
    [mkTaxRow "Texas" "2023" "Property tax" "10.4"]
    [mkPopRow "Texas" "2023" "1"] "t" c7Payload (by with_unfolding_all rfl)
    c7State (List.mem_singleton.mpr rfl)

/-! ## Population resolver -/

/-- The population value a row supplies, in the spec's vocabulary: a row
supplies a value exactly when it is for the target year, its state is on the
roster, and its population is strictly positive. -/
def popRowValue (cfg : IngestConfig) (row : RawRecord) : Option (String × ℚ) :=
  let state := normalizeState (getField row cfg.columns.popState)
  let population := parseNumeric (getField row cfg.columns.popPopulation)
  if jsToNumber (getField row cfg.columns.popYear) = some cfg.year ∧
      state ∈ VALID_STATES ∧ 0 < population
  then some (state, population) else none

/-- The empty string is not a roster state. -/
theorem empty_not_valid_state : ("" : String) ∉ VALID_STATES := by decide

/-- On a row whose year field parses to a finite number, the population loop
body is exactly: record the row's `popRowValue`, if any (the code's
`!state` test is subsumed by roster membership, since the empty string is not
a roster name). -/
theorem popStep_eq_popRowValue (cfg : IngestConfig) (m : List (String × ℚ))
    (row : RawRecord)
    (hy : (jsToNumber (getField row cfg.columns.popYear)).isSome) :
    popStep cfg m row =
      (match popRowValue cfg row with
       | some (s, p) => omapSet m s p
       | none => m) := by
  rcases hsome : jsToNumber (getField row cfg.columns.popYear) with _ | y
  · rw [hsome] at hy
    simp at hy
  · simp only [popStep, popYearKeeps, popRowValue, hsome, Option.some.injEq]
    by_cases hyy : y = cfg.year
    · subst hyy
      by_cases hst : normalizeState (getField row cfg.columns.popState) ∈ VALID_STATES
      · have hne : normalizeState (getField row cfg.columns.popState) ≠ "" := by
          intro he
          rw [he] at hst
          exact empty_not_valid_state hst
        by_cases hpos : 0 < parseNumeric (getField row cfg.columns.popPopulation)
        · simp [hst, hne, hpos]
        · simp [hst, hne, hpos]
      · simp [hst]
    · simp [hyy]

/-- The population resolver map realizes last-write-wins over the rows'
supplied values: looking up any state returns the most recent value a row
supplied for it. -/
theorem buildPop_lookup (cfg : IngestConfig) (rows : List RawRecord)
    (h : ∀ row ∈ rows, (jsToNumber (getField row cfg.columns.popYear)).isSome)
    (s : String) :
    omapGet? (buildPopulationMap cfg rows) s =
      ((rows.reverse.filterMap (popRowValue cfg)).find?
        (fun p => decide (p.1 = s))).map Prod.snd := by
  induction rows using List.reverseRecOn with
  | nil => rfl
  | append_singleton l a ih =>
    have ha : (jsToNumber (getField a cfg.columns.popYear)).isSome :=
      h a (by simp)
    have hl : ∀ row ∈ l, (jsToNumber (getField row cfg.columns.popYear)).isSome :=
      fun row hr => h row (by simp [hr])
    show omapGet? (List.foldl (popStep cfg) [] (l ++ [a])) s = _
    rw [List.foldl_append, List.foldl_cons, List.foldl_nil,
      popStep_eq_popRowValue cfg _ a ha, List.reverse_append,
      List.reverse_singleton, List.singleton_append, List.filterMap_cons]
    rcases hv : popRowValue cfg a with _ | ⟨s', p⟩
    · exact ih hl
    · by_cases hss : s' = s
      · subst hss
        rw [omapGet?_set_self]
        simp [List.find?_cons]
      · rw [omapGet?_set_ne _ _ _ _ (Ne.symm hss)]
        rw [List.find?_cons_of_neg _ (by simpa using hss)]
        exact ih hl

/-- Each `orderedInsert` step of the ranking keeps equal-population entries
in their prior relative order. -/
theorem filter_orderedInsert_snd (v : ℚ) (x : String × ℚ)
    (l : List (String × ℚ)) :
    (List.orderedInsert popDescOrder x l).filter (fun q => decide (q.2 = v)) =
      (x :: l).filter (fun q => decide (q.2 = v)) := by
  induction l with
  | nil => rfl
  | cons y l ih =>
    by_cases hr : popDescOrder x y
    · simp [List.orderedInsert, hr]
    · simp only [List.orderedInsert, if_neg hr]
      by_cases hx : x.2 = v
      · have hy : ¬ (y.2 = v) := by
          intro hy
          exact hr (by simp [popDescOrder, hx, hy])
        simp [List.filter_cons, hx, hy, ih]
      · by_cases hy : y.2 = v <;> simp [List.filter_cons, hx, hy, ih]

/-- The ranking sort is stable: restricted to any single population value,
it returns the entries in their map (insertion) order. -/
theorem filter_insertionSort_snd (v : ℚ) (l : List (String × ℚ)) :
    (List.insertionSort popDescOrder l).filter (fun q => decide (q.2 = v)) =
      l.filter (fun q => decide (q.2 = v)) := by
  induction l with
  | nil => rfl
  | cons x l ih =>
    rw [List.insertionSort, filter_orderedInsert_snd]
    by_cases hx : x.2 = v <;> simp [List.filter_cons, hx, ih]

/-- The resolver map is empty exactly when no row supplied a value. -/
theorem buildPop_empty_iff (cfg : IngestConfig) (rows : List RawRecord)
    (h : ∀ row ∈ rows, (jsToNumber (getField row cfg.columns.popYear)).isSome) :
    buildPopulationMap cfg rows = [] ↔
      ∀ row ∈ rows, popRowValue cfg row = none := by
  induction rows using List.reverseRecOn with
  | nil => simp [buildPopulationMap]
  | append_singleton l a ih =>
    have ha : (jsToNumber (getField a cfg.columns.popYear)).isSome :=
      h a (by simp)
    have hl : ∀ row ∈ l, (jsToNumber (getField row cfg.columns.popYear)).isSome :=
      fun row hr => h row (by simp [hr])
    show List.foldl (popStep cfg) [] (l ++ [a]) = [] ↔ _
    rw [List.foldl_append, List.foldl_cons, List.foldl_nil,
      popStep_eq_popRowValue cfg _ a ha]
    rcases hv : popRowValue cfg a with _ | ⟨s', p⟩
    · simp only
      rw [show List.foldl (popStep cfg) [] l = buildPopulationMap cfg l from rfl]
      rw [ih hl]
      constructor
      · intro hall row hr
        rcases List.mem_append.mp hr with h1 | h2
        · exact hall row h1
        · rw [List.mem_singleton.mp h2]
          exact hv
      · intro hall row hr
        exact hall row (List.mem_append.mpr (Or.inl hr))
    · simp only
      constructor
      · intro hset
        exact absurd hset (omapSet_ne_nil _ _ _)
      · intro hall
        have := hall a (List.mem_append.mpr (Or.inr (List.mem_singleton.mpr rfl)))
        rw [hv] at this
        exact absurd this (by simp)

/-- C5: the population resolver (with every row's year field parsing to a
finite number, so that the code's year test coincides with "is for the
target year"): (1) the resolver map holds, for each state, the most recently
seen positive population value among the target-year roster rows;
(2) the ranking is sorted descending by population; (3) it is stable — on
any single population value it preserves the map's insertion order, so ties
are broken by original input order; (4) the selection is the first
`topNStates` names of the ranking; (5) the run fails with an error exactly
when no population row survives the filtering. -/
theorem C5_population_resolver (cfg : IngestConfig)
    (taxRows popRows : List RawRecord) (now : String)
    (hyears : ∀ row ∈ popRows,
      (jsToNumber (getField row cfg.columns.popYear)).isSome) :
    (∀ s, omapGet? (buildPopulationMap cfg popRows) s =
       ((popRows.reverse.filterMap (popRowValue cfg)).find?
         (fun p => decide (p.1 = s))).map Prod.snd) ∧
    (List.insertionSort popDescOrder (buildPopulationMap cfg popRows)).Sorted
      popDescOrder ∧
    (∀ v : ℚ,
      (List.insertionSort popDescOrder (buildPopulationMap cfg popRows)).filter
          (fun q => decide (q.2 = v)) =
        (buildPopulationMap cfg popRows).filter (fun q => decide (q.2 = v))) ∧
    selectTopStates cfg (buildPopulationMap cfg popRows) =
      ((List.insertionSort popDescOrder
        (buildPopulationMap cfg popRows)).map Prod.fst).take cfg.topNStates ∧
    ((runIngest cfg taxRows popRows now).isOk = false ↔
      ∀ row ∈ popRows, popRowValue cfg row = none) := by
  refine ⟨buildPop_lookup cfg popRows hyears, List.sorted_insertionSort _ _,
    fun v => filter_insertionSort_snd v _, ?_, ?_⟩
  · rw [selectTopStates, List.map_take]
  · rw [← buildPop_empty_iff cfg popRows hyears]
    simp only [runIngest]
    by_cases hpop : buildPopulationMap cfg popRows = []
    · simp [hpop, Except.isOk, Except.toBool]
    · simp [hpop, Except.isOk, Except.toBool]

/-- The population rows of the C5 witness: two Texas rows (the later, larger
one must win) and one Ohio row. -/
def c5PopRows : List RawRecord :=
  [mkPopRow "Texas" "2023" "90", mkPopRow "Ohio" "2023" "50",
   mkPopRow "Texas" "2023" "100"]

/-- C5 witness: the resolver theorem applied to a concrete run — projecting
the last-write-wins clause at `"Texas"`. -/
theorem C5_population_resolver_witness :
    omapGet? (buildPopulationMap sampleCfg c5PopRows) "Texas" =
      ((c5PopRows.reverse.filterMap (popRowValue sampleCfg)).find?
        (fun p => decide (p.1 = "Texas"))).map Prod.snd :=
  (C5_population_resolver sampleCfg [] c5PopRows "t"
    (by
      intro row hr
      simp only [c5PopRows, List.mem_cons, List.not_mem_nil, or_false] at hr
      rcases hr with h | h | h <;> rw [h] <;> with_unfolding_all rfl)).1 "Texas"

/-! ## Counting the output states -/

/-- The update `omapSet` keeps the keys duplicate-free. -/
theorem nodup_keys_omapSet {κ ν : Type} [DecidableEq κ] (m : List (κ × ν))
    (k : κ) (v : ν) (h : (m.map Prod.fst).Nodup) :
    ((omapSet m k v).map Prod.fst).Nodup := by
  rw [keys_omapSet]
  by_cases hk : k ∈ m.map Prod.fst
  · simpa [hk] using h
  · simp [hk, h, List.nodup_append]

/-- The aggregation key (state) a tax row contributes to, if any: the row
must pass the year filter, its state must be among the selected top states,
and its tax-type label must be non-blank. -/
def taxRowQualifies (cfg : IngestConfig) (topSet : List String)
    (row : RawRecord) : Option String :=
  if taxYearKeeps cfg row = false then none
  else
    let state := normalizeState (getField row cfg.columns.taxState)
    if state ∉ topSet then none
    else
      let rawTaxType :=
        strTrim (jsToString (jsCoalesce (getField row cfg.columns.taxTaxType) (.str "")))
      if rawTaxType = "" then none else some state

/-- A qualifying row's aggregation key is a selected state. -/
theorem taxRowQualifies_mem_topSet (cfg : IngestConfig) (topSet : List String)
    (row : RawRecord) (s : String)
    (h : taxRowQualifies cfg topSet row = some s) : s ∈ topSet := by
  simp only [taxRowQualifies] at h
  split at h
  · exact absurd h (by simp)
  · split at h
    · exact absurd h (by simp)
    · split at h
      · exact absurd h (by simp)
      · rename_i h1 h2 h3
        rw [Option.some.injEq] at h
        rw [← h]
        exact not_not.mp h2

/-- The aggregation-map keys after one step: unchanged for a non-qualifying
row, otherwise extended (if new) by the row's aggregation key. -/
theorem taxStep_agg_keys (cfg : IngestConfig) (popMap : List (String × ℚ))
    (topSet : List String) (acc : AggAcc) (row : RawRecord) :
    ((taxStep cfg popMap topSet acc row).agg).map Prod.fst =
      (match taxRowQualifies cfg topSet row with
       | none => acc.agg.map Prod.fst
       | some s =>
         if s ∈ acc.agg.map Prod.fst then acc.agg.map Prod.fst
         else acc.agg.map Prod.fst ++ [s]) := by
  by_cases h1 : taxYearKeeps cfg row = false
  · simp [taxStep, taxRowQualifies, h1]
  · by_cases h2 : normalizeState (getField row cfg.columns.taxState) ∉ topSet
    · simp [taxStep, taxRowQualifies, h1, h2]
    · by_cases h3 : strTrim (jsToString
          (jsCoalesce (getField row cfg.columns.taxTaxType) (.str ""))) = ""
      · simp [taxStep, taxRowQualifies, h1, h2, h3]
      · simp [taxStep, taxRowQualifies, h1, h2, h3, keys_omapSet]

/-- Key-set form of `taxStep_agg_keys` for a non-qualifying row. -/
theorem taxStep_agg_keys_none (cfg : IngestConfig) (popMap : List (String × ℚ))
    (topSet : List String) (acc : AggAcc) (row : RawRecord)
    (hq : taxRowQualifies cfg topSet row = none) :
    ((taxStep cfg popMap topSet acc row).agg).map Prod.fst =
      acc.agg.map Prod.fst := by
  have h := taxStep_agg_keys cfg popMap topSet acc row
  rw [hq] at h
  exact h

/-- Key-set form of `taxStep_agg_keys` for a qualifying row. -/
theorem taxStep_agg_keys_some (cfg : IngestConfig) (popMap : List (String × ℚ))
    (topSet : List String) (acc : AggAcc) (row : RawRecord) (s : String)
    (hq : taxRowQualifies cfg topSet row = some s) :
    ((taxStep cfg popMap topSet acc row).agg).map Prod.fst =
      (if s ∈ acc.agg.map Prod.fst then acc.agg.map Prod.fst
       else acc.agg.map Prod.fst ++ [s]) := by
  have h := taxStep_agg_keys cfg popMap topSet acc row
  rw [hq] at h
  exact h

/-- Membership in the aggregation-map keys after the whole fold. -/
theorem taxFold_agg_keys_mem (cfg : IngestConfig) (popMap : List (String × ℚ))
    (topSet : List String) (rows : List RawRecord) (acc : AggAcc) (s : String) :
    (s ∈ ((rows.foldl (taxStep cfg popMap topSet) acc).agg).map Prod.fst ↔
      s ∈ acc.agg.map Prod.fst ∨
        ∃ row ∈ rows, taxRowQualifies cfg topSet row = some s) := by
  induction rows generalizing acc with
  | nil => simp
  | cons row rows ih =>
    rw [List.foldl_cons, ih, List.exists_mem_cons_iff]
    rcases hq : taxRowQualifies cfg topSet row with _ | s'
    · rw [taxStep_agg_keys_none cfg popMap topSet acc row hq]
      constructor
      · rintro (h | h)
        · exact Or.inl h
        · exact Or.inr (Or.inr h)
      · rintro (h | h | h)
        · exact Or.inl h
        · exact absurd h (by simp)
        · exact Or.inr h
    · rw [taxStep_agg_keys_some cfg popMap topSet acc row s' hq]
      by_cases hs' : s' ∈ acc.agg.map Prod.fst
      · rw [if_pos hs']
        constructor
        · rintro (h | h)
          · exact Or.inl h
          · exact Or.inr (Or.inr h)
        · rintro (h | h | h)
          · exact Or.inl h
          · rw [Option.some.injEq] at h
            exact Or.inl (h ▸ hs')
          · exact Or.inr h
      · rw [if_neg hs']
        simp only [List.mem_append, List.mem_singleton]
        constructor
        · rintro ((h | h) | h)
          · exact Or.inl h
          · exact Or.inr (Or.inl (by rw [h]))
          · exact Or.inr (Or.inr h)
        · rintro (h | h | h)
          · exact Or.inl (Or.inl h)
          · rw [Option.some.injEq] at h
            exact Or.inl (Or.inr h.symm)
          · exact Or.inr h

/-- The aggregation-map keys stay duplicate-free along the fold. -/
theorem taxFold_agg_keys_nodup (cfg : IngestConfig) (popMap : List (String × ℚ))
    (topSet : List String) (rows : List RawRecord) (acc : AggAcc)
    (h : (acc.agg.map Prod.fst).Nodup) :
    (((rows.foldl (taxStep cfg popMap topSet) acc).agg).map Prod.fst).Nodup := by
  induction rows generalizing acc with
  | nil => simpa using h
  | cons row rows ih =>
    rw [List.foldl_cons]
    refine ih _ ?_
    rcases hq : taxRowQualifies cfg topSet row with _ | s'
    · rw [taxStep_agg_keys_none cfg popMap topSet acc row hq]
      exact h
    · rw [taxStep_agg_keys_some cfg popMap topSet acc row s' hq]
      by_cases hs' : s' ∈ acc.agg.map Prod.fst
      · simpa [hs'] using h
      · simp [hs', h, List.nodup_append]

/-- The population-map keys stay duplicate-free along the fold. -/
theorem popFold_keys_nodup (cfg : IngestConfig) (rows : List RawRecord)
    (m : List (String × ℚ)) (h : (m.map Prod.fst).Nodup) :
    (((rows.foldl (popStep cfg) m)).map Prod.fst).Nodup := by
  induction rows generalizing m with
  | nil => simpa using h
  | cons row rows ih =>
    rw [List.foldl_cons]
    refine ih _ ?_
    simp only [popStep]
    split
    · exact h
    · split
      · exact h
      · split
        · exact nodup_keys_omapSet _ _ _ h
        · exact h

/-- The selected top-state names are duplicate-free. -/
theorem selectTopStates_nodup (cfg : IngestConfig) (rows : List RawRecord) :
    (selectTopStates cfg (buildPopulationMap cfg rows)).Nodup := by
  have h1 : ((buildPopulationMap cfg rows).map Prod.fst).Nodup :=
    popFold_keys_nodup cfg rows [] (by simp)
  have h2 : ((List.insertionSort popDescOrder
      (buildPopulationMap cfg rows)).map Prod.fst).Nodup :=
    (((List.perm_insertionSort popDescOrder _).map Prod.fst).nodup_iff).mpr h1
  rw [selectTopStates, List.map_take]
  exact List.Nodup.sublist (List.take_sublist _ _) h2

/-- C4 amended: the number of output states is the number of SELECTED states
that have at least one qualifying tax row (right year, selected state,
non-blank tax type); it equals `min(topN, number of states with a valid
population)` — the original claim's formula — exactly under the additional
condition that every selected state has at least one qualifying tax row. -/
theorem C4_states_count_amended (cfg : IngestConfig)
    (taxRows popRows : List RawRecord) (now : String) (p : Payload)
    (hok : runIngest cfg taxRows popRows now = .ok p) :
    p.states.length =
      ((selectTopStates cfg (buildPopulationMap cfg popRows)).filter
        (fun s => taxRows.any (fun row =>
          taxRowQualifies cfg
            (selectTopStates cfg (buildPopulationMap cfg popRows)) row =
            some s))).length ∧
    ((∀ s ∈ selectTopStates cfg (buildPopulationMap cfg popRows),
        taxRows.any (fun row =>
          taxRowQualifies cfg
            (selectTopStates cfg (buildPopulationMap cfg popRows)) row =
            some s) = true) →
      p.states.length =
        min cfg.topNStates (buildPopulationMap cfg popRows).length) := by
  simp only [runIngest] at hok
  by_cases hpop : buildPopulationMap cfg popRows = []
  · rw [if_pos hpop] at hok
    exact absurd hok (by simp)
  rw [if_neg hpop] at hok
  simp only [Except.ok.injEq] at hok
  subst hok
  have hlen1 : (List.insertionSort revDescOrder
      ((List.map (fun x => x.2) (taxRows.foldl
        (taxStep cfg (buildPopulationMap cfg popRows)
          (selectTopStates cfg (buildPopulationMap cfg popRows)))
        ⟨[], []⟩).agg).map finalizeState)).length =
      ((taxRows.foldl (taxStep cfg (buildPopulationMap cfg popRows)
        (selectTopStates cfg (buildPopulationMap cfg popRows)))
        ⟨[], []⟩).agg).length := by
    rw [(List.perm_insertionSort _ _).length_eq, List.length_map,
      List.length_map]
  have hkeysnodup := taxFold_agg_keys_nodup cfg (buildPopulationMap cfg popRows)
    (selectTopStates cfg (buildPopulationMap cfg popRows)) taxRows ⟨[], []⟩
    (by simp)
  have htsnodup := selectTopStates_nodup cfg popRows
  have hperm : List.Perm
      (((taxRows.foldl (taxStep cfg (buildPopulationMap cfg popRows)
        (selectTopStates cfg (buildPopulationMap cfg popRows)))
        ⟨[], []⟩).agg).map Prod.fst)
      ((selectTopStates cfg (buildPopulationMap cfg popRows)).filter
        (fun s => taxRows.any (fun row =>
          taxRowQualifies cfg
            (selectTopStates cfg (buildPopulationMap cfg popRows)) row =
            some s))) := by
    rw [List.perm_ext_iff_of_nodup hkeysnodup (htsnodup.filter _)]
    intro s
    rw [taxFold_agg_keys_mem, List.mem_filter]
    simp only [List.mem_map, List.any_eq_true, decide_eq_true_eq]
    constructor
    · rintro (h | ⟨row, hrow, hq⟩)
      · simp at h
      · exact ⟨taxRowQualifies_mem_topSet _ _ _ _ hq, row, hrow, hq⟩
    · rintro ⟨hmem, row, hrow, hq⟩
      exact Or.inr ⟨row, hrow, hq⟩
  have hlm : forall l : List (String × AggState),
      l.length = (l.map Prod.fst).length :=
    fun l => (List.length_map l Prod.fst).symm
  dsimp only
  constructor
  · rw [hlen1, hlm, hperm.length_eq]
  · intro hall
    rw [hlen1, hlm, hperm.length_eq,
      List.filter_eq_self.mpr hall, selectTopStates, List.length_map,
      List.length_take, (List.perm_insertionSort _ _).length_eq]

/-- C4 counterexample: with two states holding valid populations and
`topN = 2`, but tax rows for only one of them, the output has 1 state, not
`min(topN, number of states with valid population) = 2`. -/
theorem C4_topn_counterexample :
    (runIngest sampleCfg [mkTaxRow "Texas" "2023" "Property tax" "5"]
        [mkPopRow "Texas" "2023" "100", mkPopRow "Ohio" "2023" "50"]
        "t").toOption.map (fun p => p.states.length) = some 1 ∧
    (buildPopulationMap sampleCfg
        [mkPopRow "Texas" "2023" "100", mkPopRow "Ohio" "2023" "50"]).length = 2 ∧
    sampleCfg.topNStates = 2 ∧
    (1 : ℕ) ≠ min 2 2 :=
  ⟨by with_unfolding_all rfl, by with_unfolding_all rfl, rfl, by decide⟩

/-- The payload of the C4 witness run (both selected states have tax rows). -/
def c4WitnessPayload : Payload :=
  { year := 2023, topN := 2, generatedAt := "t"
    taxTypes := [("property_tax", "property_tax")]
    states :=
      [{ state := "Texas", population := 100, totalRevenue := 5,
         perCapitaTotal := 1/20, breakdown := [("property_tax", 5)] },
       { state := "Ohio", population := 50, totalRevenue := 4,
         perCapitaTotal := 2/25, breakdown := [("property_tax", 4)] }] }

/-- C4 witness: when both selected states do have tax rows, the output count
matches the original formula `min(topN, #states with valid population)`. -/
theorem C4_states_count_witness :
    (c4WitnessPayload).states.length =
      min sampleCfg.topNStates
        (buildPopulationMap sampleCfg
          [mkPopRow "Texas" "2023" "100", mkPopRow "Ohio" "2023" "50"]).length :=
  (C4_states_count_amended sampleCfg
    [mkTaxRow "Texas" "2023" "Property tax" "5",
     mkTaxRow "Ohio" "2023" "Property tax" "4"]
    [mkPopRow "Texas" "2023" "100", mkPopRow "Ohio" "2023" "50"] "t"
    c4WitnessPayload (by with_unfolding_all rfl)).2
    (by with_unfolding_all decide)

/-! ## Source Row Reader error conditions -/

/-- The spec's words for the bracketed-JSON requirement: a non-empty JSON
array of arrays. -/
def isNonemptyArrayOfArrays : Json → Bool
  | .arr items =>
    !items.isEmpty &&
      items.all (fun x => match x with | .arr _ => true | _ => false)
  | _ => false

/-- A string whose character list is empty is the empty string. -/
theorem string_eq_empty_of_toList_nil (s : String) (h : s.toList = []) :
    s = "" := by
  cases s
  exact congrArg String.mk h

/-- C6 counterexample: the content `[["NAME"]]` decodes to a non-empty JSON
array of arrays (a single header row), is not blank, and starts with `[` —
by the claim the reader should succeed — yet the reader fails, because the
code additionally requires the array to have length at least 2 (header plus
at least one data row). -/
theorem C6_reader_counterexample :
    jsonParse "[[\"NAME\"]]" = .ok (.arr [.arr [.str "NAME"]]) ∧
    isNonemptyArrayOfArrays (.arr [.arr [.str "NAME"]]) = true ∧
    strTrim "[[\"NAME\"]]" ≠ "" ∧
    (strTrim "[[\"NAME\"]]").toList.head? = some '[' ∧
    (parseSourceRows "[[\"NAME\"]]").isOk = false :=
  ⟨by with_unfolding_all rfl, rfl, by decide, by with_unfolding_all rfl,
    by with_unfolding_all rfl⟩

/-- Indexing a data row succeeds exactly when the row is not `null`
(property access on `null` throws). -/
theorem jsonIndex_isOk (row : Json) (i : ℕ) :
    (jsonIndex row i).isOk = true ↔ row ≠ Json.null := by
  cases row <;> simp [jsonIndex, Except.isOk, Except.toBool]

/-- The zipping loop over a list of indexed header labels succeeds exactly
when the label list is empty or the row is not `null`. -/
theorem censusZipFields_isOk (row : Json) (l : List (ℕ × Json))
    (out : RawRecord) :
    (censusZipFields row l out).isOk = true ↔ (l = [] ∨ row ≠ Json.null) := by
  induction l generalizing out with
  | nil => simp [censusZipFields, Except.isOk, Except.toBool]
  | cons p l ih =>
    simp only [censusZipFields]
    rcases hji : jsonIndex row p.1 with e | v
    · have hnull : row = Json.null := by
        by_contra hc
        have h2 := (jsonIndex_isOk row p.1).mpr hc
        rw [hji] at h2
        simp [Except.isOk, Except.toBool] at h2
      simp [hnull, Except.isOk, Except.toBool]
    · have hnn : row ≠ Json.null := by
        intro hc
        rw [hc] at hji
        simp [jsonIndex] at hji
      simp only [ih]
      simp [hnn]

/-- One zipped row succeeds exactly when there are no header labels or the
row is not `null`. -/
theorem censusZipRow_isOk (headers : List Json) (row : Json) :
    (censusZipRow headers row).isOk = true ↔
      (headers = [] ∨ row ≠ Json.null) := by
  rw [censusZipRow, censusZipFields_isOk]
  cases headers <;> simp [List.enum, List.enumFrom]

/-- The whole row-mapping succeeds exactly when there are no header labels
or no data row is `null`. -/
theorem censusZipRows_isOk (headers : List Json) (rows : List Json) :
    (censusZipRows headers rows).isOk = true ↔
      (headers = [] ∨ ∀ r ∈ rows, r ≠ Json.null) := by
  induction rows with
  | nil => simp [censusZipRows, Except.isOk, Except.toBool]
  | cons r rs ih =>
    simp only [censusZipRows]
    by_cases hr : headers = [] ∨ r ≠ Json.null
    · rcases hzr : censusZipRow headers r with e | rec
      · exfalso
        have h2 := (censusZipRow_isOk headers r).mpr hr
        rw [hzr] at h2
        simp [Except.isOk, Except.toBool] at h2
      · rcases hzs : censusZipRows headers rs with e2 | recs
        · rw [hzs] at ih
          simp only [Except.isOk, Except.toBool] at ih ⊢
          constructor
          · intro h
            cases h
          · rintro (hh | hall)
            · exact absurd (ih.mpr (Or.inl hh)) (by simp)
            · exact absurd
                (ih.mpr (Or.inr (fun x hx => hall x (List.mem_cons_of_mem r hx))))
                (by simp)
        · rw [hzs] at ih
          simp only [Except.isOk, Except.toBool] at ih ⊢
          rcases hr with hh | hrn
          · simp [hh]
          · constructor
            · intro _
              rcases ih.mp trivial with hh | hall
              · exact Or.inl hh
              · refine Or.inr (fun x hx => ?_)
                rcases List.mem_cons.mp hx with hx1 | hx2
                · exact hx1 ▸ hrn
                · exact hall x hx2
            · intro _
              trivial
    · push_neg at hr
      rcases hzr : censusZipRow headers r with e | rec
      · simp only [Except.isOk, Except.toBool]
        constructor
        · intro h
          cases h
        · rintro (hh | hall)
          · exact absurd hh hr.1
          · exact absurd hr.2 (by simpa using hall r (List.mem_cons_self r rs))
      · exfalso
        have h2 := (censusZipRow_isOk headers r).mp (by rw [hzr]; rfl)
        rcases h2 with hh | hrn
        · exact hr.1 hh
        · exact hrn hr.2

/-- C6 amended: the Source Row Reader fails exactly when the content is blank
after trimming; or the trimmed content starts with `[` and the Census JSON
reader rejects it; or it does not start with `[` and the delimited reader
reports errors (an undetectable delimiter, malformed quoting, or a field
count differing from the header's).  The Census JSON reader succeeds exactly
on contents that decode to a JSON array of length at least 2 whose FIRST
element is an array — not, as claimed, every non-empty array of arrays: a
headers-only array of length 1 is rejected and the non-first elements need
not be arrays — and whose zipping does not throw, i.e. the header-label list
is empty or no data row is JSON `null` (indexing a `null` row throws a
`TypeError`). -/
theorem C6_reader_errors_amended (content : String) :
    ((parseSourceRows content).isOk = false ↔
      strTrim content = "" ∨
      ((strTrim content).toList.head? = some '[' ∧
        (parseCensusApiJson content).isOk = false) ∨
      ((strTrim content).toList.head? ≠ some '[' ∧
        (parseCsv content).isOk = false)) ∧
    ((parseCensusApiJson content).isOk = true ↔
      ∃ headers rest,
        jsonParse content = .ok (.arr (Json.arr headers :: rest)) ∧
          rest ≠ [] ∧ (headers = [] ∨ ∀ r ∈ rest, r ≠ Json.null)) := by
  constructor
  · by_cases hb : strTrim content = ""
    · simp [parseSourceRows, hb, Except.isOk, Except.toBool]
    · simp only [parseSourceRows, if_neg hb]
      split
      · rename_i tail heq
        have heqd : (strTrim content).data = '[' :: tail := heq
        simp [heqd, hb]
      · rename_i hnb
        have hh : (strTrim content).data.head? ≠ some '[' := by
          rcases hl : (strTrim content).toList with _ | ⟨c, cs⟩
          · have hld : (strTrim content).data = [] := hl
            simp [hld]
          · have hc : c ≠ '[' := by
              intro hc
              exact hnb cs (by rw [hl, hc])
            have hld : (strTrim content).data = c :: cs := hl
            simp [hld, hc]
        simp [hb, hh]
  · rcases hj : jsonParse content with e | j
    · simp [parseCensusApiJson, hj, Except.isOk, Except.toBool]
    · rcases j with _ | b | q | s | xs | kvs
      case arr =>
        rcases xs with _ | ⟨x, rest⟩
        · simp [parseCensusApiJson, hj, Except.isOk, Except.toBool]
        · rcases x with _ | b | q | s | headers | kvs2
          case arr =>
            cases rest with
            | nil =>
              simp [parseCensusApiJson, hj, Except.isOk, Except.toBool,
                List.isEmpty]
            | cons r1 rs =>
              have hred : parseCensusApiJson content =
                  censusZipRows headers (r1 :: rs) := by
                simp [parseCensusApiJson, hj, List.isEmpty]
              rw [hred, censusZipRows_isOk]
              constructor
              · intro h
                exact ⟨headers, r1 :: rs, rfl, by simp, h⟩
              · rintro ⟨h2, r2, heq, hne, hcond⟩
                simp only [Except.ok.injEq, Json.arr.injEq,
                  List.cons.injEq] at heq
                rcases heq with ⟨hh2, hr2⟩
                subst hh2
                subst hr2
                exact hcond
          all_goals
            simp [parseCensusApiJson, hj, Except.isOk, Except.toBool]
      all_goals
        simp [parseCensusApiJson, hj, Except.isOk, Except.toBool]

end StateTaxApp
